import Mathlib

/-!
Verification of the cloudship SMTP server core (src/smtp/server/*,
src/smtp/protocol.rs, src/util/scribe.rs, src/util/abnf/core.rs).

Bytes are modelled as natural numbers; byte buffers as lists of naturals.
Rust structs become Lean structures, Rust enums become inductives, and the
generic handler traits of the session machine (whose defining module
server/protocol.rs is not part of the source tree; only its users are)
become a bundle of types and functions the definitions are parametric over.
-/

set_option maxRecDepth 4000

/-- Convenience: byte list of an ASCII string literal. -/
def bs (s : String) : List Nat :=
  s.data.map Char.toNat

/-! ## util/scribe.rs

The Scribe trait's provided method scribble_u64 emits the decimal digits of
a number most-significant first.  We model the byte sequence it produces. -/

/-- Recursion of Scribe::scribble_u64, made structural with a fuel that
bounds the number of digits: recursively scribble v / 10 when that is
nonzero, then emit v % 10 + 48. -/
def scribbleU64Go : Nat → Nat → List Nat
  | 0, v => [v % 10 + 48]
  | fuel + 1, v =>
      (if v / 10 > 0 then scribbleU64Go fuel (v / 10) else []) ++ [v % 10 + 48]

/-- Decimal digit bytes of a number, as emitted by Scribe::scribble_u64. -/
def scribbleU64 (v : Nat) : List Nat :=
  scribbleU64Go v v

/-! ## smtp/server/buf.rs : SendBuf

SendBuf wraps a byte vector with a write cursor.  The claims only concern
the accumulated bytes, so we model the vector; Scribe::scribble_bytes
appends, update(pos, ch) overwrites one byte. -/

/-- SendBuf: the accumulated outbound bytes (write cursor elided). -/
abbrev SendBuf := List Nat

/-- SendBuf::update - overwrite the byte at an absolute position. -/
def SendBuf.update (send : SendBuf) (pos : Nat) (ch : Nat) : SendBuf :=
  send.set pos ch

/-! ## smtp/server/reply.rs -/

/-- Writes the prefix for a reply line (fn write_prefix): the decimal code,
the position of the following space is remembered, then the space and the
optional enhanced status code.  Returns the new buffer and that position. -/
def writePfx (send : SendBuf) (code : Nat) (status : Option (Nat × Nat × Nat)) :
    SendBuf × Nat :=
  let send := send ++ scribbleU64 code
  let res := send.length
  let send := send ++ [32]
  let send := match status with
    | none => send
    | some (a, b, c) =>
        send ++ scribbleU64 a ++ [46] ++ scribbleU64 b ++ [46] ++
          scribbleU64 c ++ [32]
  (send, res)

/-- Reply (struct Reply): the writer state for one SMTP reply.  The buffer
is threaded separately; sp is the recorded separator position, crlf records
whether the last write ended a line. -/
structure ReplyW where
  code : Nat
  status : Option (Nat × Nat × Nat)
  sp : Nat
  crlf : Bool

/-- Reply::new - write the first prefix and set up the writer state. -/
def ReplyW.new (send : SendBuf) (code : Nat) (status : Option (Nat × Nat × Nat)) :
    ReplyW × SendBuf :=
  let (send, sp) := writePfx send code status
  ({ code := code, status := status, sp := sp, crlf := false }, send)

/-- Rust slice::split on the newline byte: every maximal run not containing
10, in order (an empty list splits into one empty segment). -/
def splitNl : List Nat → List (List Nat)
  | [] => [[]]
  | c :: rest =>
      if c = 10 then [] :: splitNl rest
      else match splitNl rest with
        | [] => [[c]]
        | seg :: segs => (c :: seg) :: segs

/-- One iteration of the loop in Reply::scribble_bytes: empty segments are
skipped; if the previous write ended a line, the previous separator is
patched to a dash and a fresh prefix written; the segment is appended and,
when it ends in CR, an LF follows and the line is marked ended. -/
def ReplyW.scribLine (st : ReplyW × SendBuf) (line : List Nat) : ReplyW × SendBuf :=
  if line.isEmpty then st else
  let (r, buf) := st
  let (r, buf) :=
    if r.crlf then
      let buf := buf.update r.sp 45
      let (buf, sp) := writePfx buf r.code r.status
      ({ r with sp := sp, crlf := false }, buf)
    else (r, buf)
  let buf := buf ++ line
  if line.getLast? = some 13 then ({ r with crlf := true }, buf ++ [10])
  else (r, buf)

/-- Reply::scribble_bytes: nothing on empty input, else the loop over the
segments of the text split at newlines. -/
def ReplyW.scribbleBytes (st : ReplyW × SendBuf) (text : List Nat) :
    ReplyW × SendBuf :=
  if text.isEmpty then st
  else (splitNl text).foldl ReplyW.scribLine st

/-- Reply::scribble_octet: prefix handling as for a segment, then one byte. -/
def ReplyW.scribOctet (st : ReplyW × SendBuf) (ch : Nat) : ReplyW × SendBuf :=
  let (r, buf) := st
  let (r, buf) :=
    if r.crlf then
      let buf := buf.update r.sp 45
      let (buf, sp) := writePfx buf r.code r.status
      ({ r with sp := sp, crlf := false }, buf)
    else (r, buf)
  (r, buf ++ [ch])

/-- Scribe::scribble_u64 run against a Reply: one scribble_octet per digit. -/
def ReplyW.scribU64 (st : ReplyW × SendBuf) (v : Nat) : ReplyW × SendBuf :=
  (scribbleU64 v).foldl ReplyW.scribOctet st

/-- Reply::reply - a complete one-line reply: new writer, scribble the text. -/
def replyLine (send : SendBuf) (code : Nat) (status : Nat × Nat × Nat)
    (text : List Nat) : SendBuf :=
  (ReplyW.scribbleBytes (ReplyW.new send code (some status)) text).2

/-- SendBuf::reply forwards to Reply::reply. -/
def SendBuf.reply (send : SendBuf) (code : Nat) (status : Nat × Nat × Nat)
    (text : List Nat) : SendBuf :=
  replyLine send code status text

/-! ## smtp/server/buf.rs : RecvBuf -/

/-- RecvBuf: a byte vector and the read position. -/
structure RecvBuf where
  inner : List Nat
  rpos : Nat
deriving DecidableEq

/-- RecvBuf::as_slice - the not yet consumed bytes. -/
def RecvBuf.asSlice (b : RecvBuf) : List Nat :=
  b.inner.drop b.rpos

/-- RecvBuf::is_empty. -/
def RecvBuf.isEmpty (b : RecvBuf) : Bool :=
  b.rpos = b.inner.length

/-- RecvBuf::len - bytes remaining. -/
def RecvBuf.len (b : RecvBuf) : Nat :=
  b.inner.length - b.rpos

/-- RecvBuf::clear. -/
def RecvBuf.clear : RecvBuf :=
  { inner := [], rpos := 0 }

/-- RecvBuf::advance - move the read position, clamped to the end; a fully
drained buffer is cleared. -/
def RecvBuf.advance (b : RecvBuf) (n : Nat) : RecvBuf :=
  let b := { b with rpos := min b.inner.length (b.rpos + n) }
  if b.isEmpty then RecvBuf.clear else b

/-- The DATA terminator CRLF "." CRLF. -/
def dataTerm : List Nat := [13, 10, 46, 13, 10]

/-- Scan loop inside RecvBuf::find_data_end, called with at least five bytes
remaining: test the window at the current index, then step while five bytes
remain. -/
def findDataEndAux : List Nat → Nat → Option Nat
  | [], _ => none
  | c :: t, i =>
      if (c :: t).take 5 = dataTerm then some i
      else if 5 ≤ t.length then findDataEndAux t (i + 1) else none

/-- RecvBuf::find_data_end - index of the first occurrence of the
terminator among the unconsumed bytes, if any (the scan covers the indices
0 to len - 5). -/
def RecvBuf.findDataEnd (b : RecvBuf) : Option Nat :=
  let slice := b.asSlice
  if 5 ≤ slice.length then findDataEndAux slice 0 else none

example : (RecvBuf.mk (bs "a\r\n.\r\nb") 0).findDataEnd = some 1 := by decide
example : (RecvBuf.mk (bs "abcdef") 0).findDataEnd = none := by decide
example : splitNl (bs "ab\r\ncd") = [bs "ab\r", bs "cd"] := by decide
example : scribbleU64 250 = [50, 53, 48] := by decide

/-! ## smtp/server/protocol.rs (handler surface)

The module defining the handler traits (Protocol, SessionHandler,
MailHandler, DataHandler, AncillaryHandler, Hesitant) is not part of the
source tree; only its user session.rs is.  The shapes below are modelled
from the spec, section 4.6, and from the call sites in session.rs.  The
session machine is parametric over them exactly as the Rust code is
parametric over P: Protocol. -/

/-- Hesitant - either a final value or a deferred computation. -/
inductive Hesitant (V D : Type) where
  | Final (v : V)
  | Defer (d : D)

/-- Hesitant::map_final. -/
def Hesitant.mapFinal {V W D : Type} (f : V → W) : Hesitant V D → Hesitant W D
  | .Final v => .Final (f v)
  | .Defer d => .Defer d

/-- Level - the session level (enum Level in session.rs). -/
inductive Level (S M : Type) where
  | early (s : S)
  | greeted (s : S)
  | mail (m : M)

/-- The associated types of trait Protocol and of the handler traits:
session handler, mail transaction, data sink, seed, peer certificate, and
one defer type per deferable handler call. -/
structure Proto : Type 1 where
  S : Type
  M : Type
  D : Type
  Seed : Type
  Cert : Type
  StartD : Type
  HelloD : Type
  MailD : Type
  RcptD : Type
  DataD : Type
  CompleteD : Type
  CheckTlsD : Type
  VrfySD : Type
  VrfyMD : Type
  ExpnSD : Type
  ExpnMD : Type
  HelpSD : Type
  HelpMD : Type

/-! ## smtp/syntax.rs (spec-modelled)

Modelled from the spec: the syntax module with the Command enum consumed by
session.rs is not part of the source tree.  Commands and their payloads are
taken from the spec, section 4.3, and the match arms of Idle::recv; the
payloads are opaque to the session machine, so they are plain byte lists. -/

/-- Modelled from the spec: a domain name argument. -/
abbrev Syn.Domain := List Nat

/-- Modelled from the spec: domain or address literal (syntax::MailboxDomain). -/
inductive Syn.MailboxDomain where
  | domain (d : Syn.Domain)
  | address (a : List Nat)

/-- Modelled from the spec: MAIL reverse path. -/
abbrev Syn.ReversePath := List Nat

/-- Modelled from the spec: MAIL parameters. -/
abbrev Syn.MailParams := List Nat

/-- Modelled from the spec: RCPT path. -/
abbrev Syn.RcptPath := List Nat

/-- Modelled from the spec: RCPT parameters. -/
abbrev Syn.RcptParams := List Nat

/-- Modelled from the spec: a word argument. -/
abbrev Syn.Word := List Nat

/-- Modelled from the spec: VRFY parameters. -/
abbrev Syn.VrfyParams := List Nat

/-- Modelled from the spec: EXPN parameters. -/
abbrev Syn.ExpnParams := List Nat

/-- Modelled from the spec: the parsed command enum of smtp/syntax.rs, with
the variants the match in Idle::recv and Session::recv_dead distinguishes. -/
inductive Syn.Command where
  | helo (d : Syn.Domain)
  | ehlo (d : Syn.MailboxDomain)
  | mail (p : Syn.ReversePath) (ps : Syn.MailParams)
  | rcpt (p : Syn.RcptPath) (ps : Syn.RcptParams)
  | data
  | rset
  | vrfy (w : Syn.Word) (ps : Syn.VrfyParams)
  | expn (w : Syn.Word) (ps : Syn.ExpnParams)
  | help (w : Option Syn.Word)
  | noop
  | quit
  | startTls
  | auth (mechanism : List Nat) (initial : Option (List Nat))
  | unrecognized
  | parameterError

/-- The handler operations, parametric over the Proto bundle.  A call that
receives a ReplyBuf can write into the send buffer, so it also returns the
new buffer.  Wakeup operations are the wakeup methods of the defer types. -/
structure Handlers (P : Proto) where
  start : P.Seed → Hesitant (Option P.S) P.StartD
  startWakeup : P.StartD → Hesitant (Option P.S) P.StartD
  hello : P.S → Syn.MailboxDomain → Hesitant (Option P.S) P.HelloD
  helloWakeup : P.HelloD → Hesitant (Option P.S) P.HelloD
  checkTls : P.S → Option P.Cert → Hesitant (Option P.S) P.CheckTlsD
  checkTlsWakeup : P.CheckTlsD → Hesitant (Option P.S) P.CheckTlsD
  mail : P.S → Syn.ReversePath → Syn.MailParams → SendBuf →
      Hesitant (Except P.S P.M) P.MailD × SendBuf
  mailWakeup : P.MailD → SendBuf → Hesitant (Except P.S P.M) P.MailD × SendBuf
  recipient : P.M → Syn.RcptPath → Syn.RcptParams → SendBuf →
      Hesitant (Except P.S P.M) P.RcptD × SendBuf
  recipientWakeup : P.RcptD → SendBuf →
      Hesitant (Except P.S P.M) P.RcptD × SendBuf
  data : P.M → Hesitant (Except P.S P.D) P.DataD
  dataWakeup : P.DataD → Hesitant (Except P.S P.D) P.DataD
  reset : P.M → P.S
  chunk : P.D → List Nat → P.D
  complete : P.D → SendBuf → Hesitant P.S P.CompleteD × SendBuf
  completeWakeup : P.CompleteD → SendBuf → Hesitant P.S P.CompleteD × SendBuf
  verifyS : P.S → Syn.Word → Syn.VrfyParams → SendBuf →
      Hesitant P.S P.VrfySD × SendBuf
  verifyM : P.M → Syn.Word → Syn.VrfyParams → SendBuf →
      Hesitant P.M P.VrfyMD × SendBuf
  verifySWakeup : P.VrfySD → SendBuf → Hesitant P.S P.VrfySD × SendBuf
  verifyMWakeup : P.VrfyMD → SendBuf → Hesitant P.M P.VrfyMD × SendBuf
  expandS : P.S → Syn.Word → Syn.ExpnParams → SendBuf →
      Hesitant P.S P.ExpnSD × SendBuf
  expandM : P.M → Syn.Word → Syn.ExpnParams → SendBuf →
      Hesitant P.M P.ExpnMD × SendBuf
  expandSWakeup : P.ExpnSD → SendBuf → Hesitant P.S P.ExpnSD × SendBuf
  expandMWakeup : P.ExpnMD → SendBuf → Hesitant P.M P.ExpnMD × SendBuf
  helpS : P.S → Option Syn.Word → SendBuf → Hesitant P.S P.HelpSD × SendBuf
  helpM : P.M → Option Syn.Word → SendBuf → Hesitant P.M P.HelpMD × SendBuf
  helpSWakeup : P.HelpSD → SendBuf → Hesitant P.S P.HelpSD × SendBuf
  helpMWakeup : P.HelpMD → SendBuf → Hesitant P.M P.HelpMD × SendBuf

/-! ## smtp/server/config.rs -/

/-- Config (the SSL context, irrelevant to the claims, is elided). -/
structure Config where
  hostname : List Nat
  systemname : List Nat
  sizeLimit : Nat

/-- Config::message_size_limit. -/
def Config.messageSizeLimit (c : Config) : Nat :=
  c.sizeLimit

/-! ## smtp/server/session.rs -/

/-- SAction (enum Action in session.rs) - the directive handed to the connection driver. -/
inductive SAction where
  | read
  | wait
  | write
  | collect
  | startTls
  | close
deriving DecidableEq

/-- Idle - the session level of a session that expects a command next. -/
abbrev IdleL (P : Proto) := Level P.S P.M

/-- Wait - one variant per deferable handler call (enum Wait).  The
ancillary variants carry the defer inside the level, as WaitVrfy, WaitExpn
and WaitHelp do. -/
inductive WaitSt (P : Proto) where
  | start (d : P.StartD)
  | helo (d : P.HelloD)
  | ehlo (d : P.HelloD)
  | mail (d : P.MailD)
  | rcpt (d : P.RcptD)
  | data (d : P.DataD)
  | vrfy (w : Level P.VrfySD P.VrfyMD)
  | expn (w : Level P.ExpnSD P.ExpnMD)
  | help (w : Level P.HelpSD P.HelpMD)
  | checkTls (d : P.CheckTlsD)
  | dataComplete (d : P.CompleteD)

/-- State - the session state (enum State). -/
inductive SState (P : Proto) where
  | idle (l : IdleL P)
  | wait (w : WaitSt P)
  | data (d : P.D)
  | dead

/-- The reply text b"Please say 'Hello' first\r\n" (39 is the apostrophe). -/
def pleaseSayHello : List Nat :=
  bs "Please say " ++ [39] ++ bs "Hello" ++ [39] ++ bs " first\r\n"

/-- Start::process: on Final(Some) the 220 greeting is scribbled directly to
the send buffer and the level is Early; on Final(None) the 554 refusal and
the session dies; on Defer the machine waits. -/
def Start.process {P : Proto} (hes : Hesitant (Option P.S) P.StartD)
    (send : SendBuf) (cfg : Config) : SState P × SAction × SendBuf :=
  match hes with
  | .Final (some s) =>
      (.idle (.early s), .write,
        send ++ bs "220 " ++ cfg.hostname ++ bs " ESMTP " ++ cfg.systemname ++
          bs "\r\n")
  | .Final none =>
      (.dead, .close, send ++ bs "554 5.5.0 Connection refused.\r\n")
  | .Defer d => (.wait (.start d), .wait, send)

/-- Helo::recv: a mail level is reset to a session first, then the hello
handler runs on the domain. -/
def Helo.recvH {P : Proto} (H : Handlers P) (idle : IdleL P)
    (domain : Syn.Domain) : Hesitant (Option P.S) P.HelloD :=
  let session := match idle with
    | .early s => s
    | .greeted s => s
    | .mail m => H.reset m
  H.hello session (Syn.MailboxDomain.domain domain)

/-- Helo::process. -/
def Helo.process {P : Proto} (hes : Hesitant (Option P.S) P.HelloD)
    (send : SendBuf) (cfg : Config) : SState P × SAction × SendBuf :=
  match hes with
  | .Final (some s) =>
      let st := ReplyW.new send 250 none
      let st := ReplyW.scribbleBytes st cfg.hostname
      let st := ReplyW.scribbleBytes st (bs "\r\n")
      (.idle (.greeted s), .write, st.2)
  | .Final none =>
      let st := ReplyW.new send 550 none
      let st := ReplyW.scribbleBytes st (bs "Rejected for policy reasons\r\n")
      (.dead, .close, st.2)
  | .Defer d => (.wait (.helo d), .wait, send)

/-- Ehlo::recv: same reset discipline as Helo::recv, with the mailbox
domain passed through. -/
def Ehlo.recvH {P : Proto} (H : Handlers P) (idle : IdleL P)
    (domain : Syn.MailboxDomain) : Hesitant (Option P.S) P.HelloD :=
  let session := match idle with
    | .early s => s
    | .greeted s => s
    | .mail m => H.reset m
  H.hello session domain

/-- Ehlo::process: on acceptance the multi-line 250 extension listing,
with STARTTLS only when the connection is not yet secure. -/
def Ehlo.process {P : Proto} (hes : Hesitant (Option P.S) P.HelloD)
    (send : SendBuf) (cfg : Config) (isSecure : Bool) :
    SState P × SAction × SendBuf :=
  match hes with
  | .Final (some s) =>
      let st := ReplyW.new send 250 none
      let st := ReplyW.scribbleBytes st cfg.hostname
      let st := ReplyW.scribbleBytes st
        (bs "\r\nEXPN\r\nHELP\r\n8BITMIME\r\nSIZE ")
      let st := ReplyW.scribU64 st cfg.messageSizeLimit
      let st := ReplyW.scribbleBytes st
        (bs "\r\nPIPELINING\r\nDSN\r\nETRN\r\nENHANCEDSTATUSCODES\r\nSMTPUTF8\r\n")
      let st := if isSecure then st
        else ReplyW.scribbleBytes st (bs "STARTTLS\r\n")
      (.idle (.greeted s), .write, st.2)
  | .Final none =>
      let st := ReplyW.new send 550 none
      let st := ReplyW.scribbleBytes st (bs "Rejected for policy reasons\r\n")
      (.dead, .close, st.2)
  | .Defer d => (.wait (.ehlo d), .wait, send)

/-- Mail::translate: an accepted transaction becomes the mail level, a
rejection rolls back to greeted. -/
def Mail.translate {P : Proto} : Except P.S P.M → IdleL P
  | .ok m => .mail m
  | .error s => .greeted s

/-- Mail::recv: 503 at early level, the mail handler at greeted level, 503
Nested MAIL at mail level (the existing transaction is kept). -/
def Mail.recvH {P : Proto} (H : Handlers P) (idle : IdleL P)
    (path : Syn.ReversePath) (ps : Syn.MailParams) (send : SendBuf) :
    Hesitant (IdleL P) P.MailD × SendBuf :=
  match idle with
  | .early s =>
      (.Final (.early s), send.reply 503 (5, 5, 1) pleaseSayHello)
  | .greeted s =>
      let (r, send) := H.mail s path ps send
      (r.mapFinal Mail.translate, send)
  | .mail m =>
      (.Final (.mail m),
        send.reply 503 (5, 5, 1) (bs "Nested MAIL command\r\n"))

/-- Mail::process. -/
def Mail.process {P : Proto} (hes : Hesitant (IdleL P) P.MailD)
    (send : SendBuf) : SState P × SAction × SendBuf :=
  match hes with
  | .Final idle => (.idle idle, .collect, send)
  | .Defer d => (.wait (.mail d), .wait, send)

/-- Rcpt::translate (same as Mail::translate). -/
def Rcpt.translate {P : Proto} : Except P.S P.M → IdleL P
  | .ok m => .mail m
  | .error s => .greeted s

/-- Rcpt::recv: 503 at early and greeted levels, the recipient handler at
mail level. -/
def Rcpt.recvH {P : Proto} (H : Handlers P) (idle : IdleL P)
    (path : Syn.RcptPath) (ps : Syn.RcptParams) (send : SendBuf) :
    Hesitant (IdleL P) P.RcptD × SendBuf :=
  match idle with
  | .early s =>
      (.Final (.early s), send.reply 503 (5, 5, 1) pleaseSayHello)
  | .greeted s =>
      (.Final (.greeted s),
        send.reply 503 (5, 5, 1) (bs "Need MAIL command first\r\n"))
  | .mail m =>
      let (r, send) := H.recipient m path ps send
      (r.mapFinal Rcpt.translate, send)

/-- Rcpt::process. -/
def Rcpt.process {P : Proto} (hes : Hesitant (IdleL P) P.RcptD)
    (send : SendBuf) : SState P × SAction × SendBuf :=
  match hes with
  | .Final idle => (.idle idle, .collect, send)
  | .Defer d => (.wait (.rcpt d), .wait, send)

/-- Data::translate: a rejection rolls back to greeted. -/
def Data.translate {P : Proto} : Except P.S P.D → Except (IdleL P) P.D
  | .ok d => .ok d
  | .error s => .error (.greeted s)

/-- Data::recv: 503 at early and greeted levels; at mail level the data
handler decides (no recipient count is inspected here). -/
def Data.recvH {P : Proto} (H : Handlers P) (idle : IdleL P) (send : SendBuf) :
    Hesitant (Except (IdleL P) P.D) P.DataD × SendBuf :=
  match idle with
  | .early s =>
      (.Final (.error (.early s)), send.reply 503 (5, 5, 1) pleaseSayHello)
  | .greeted s =>
      (.Final (.error (.greeted s)),
        send.reply 503 (5, 5, 1) (bs "Need MAIL command first\r\n"))
  | .mail m =>
      ((H.data m).mapFinal Data.translate, send)

/-- Data::process: acceptance answers 354 Go ahead and enters the data
state; rejection answers 554 Mail failed and stays idle. -/
def Data.process {P : Proto} (hes : Hesitant (Except (IdleL P) P.D) P.DataD)
    (send : SendBuf) : SState P × SAction × SendBuf :=
  match hes with
  | .Final (.ok d) =>
      let st := ReplyW.new send 354 none
      let st := ReplyW.scribbleBytes st (bs "Go ahead.\r\n")
      (.data d, .write, st.2)
  | .Final (.error idle) =>
      (.idle idle, .write, send.reply 554 (5, 5, 0) (bs "Mail failed\r\n"))
  | .Defer d => (.wait (.data d), .wait, send)

/-- Rset::recv: reply 250, reset a mail transaction back to greeted,
collect. -/
def Rset.recvH {P : Proto} (H : Handlers P) (idle : IdleL P) (send : SendBuf) :
    SState P × SAction × SendBuf :=
  let send := send.reply 250 (2, 0, 0) (bs "Ok\r\n")
  let idle : IdleL P := match idle with
    | .mail m => .greeted (H.reset m)
    | other => other
  (.idle idle, .collect, send)

/-- Vrfy::recv: the verify handler of the current level, level preserved. -/
def Vrfy.recvH {P : Proto} (H : Handlers P) (idle : IdleL P) (w : Syn.Word)
    (ps : Syn.VrfyParams) (send : SendBuf) :
    Level (Hesitant P.S P.VrfySD) (Hesitant P.M P.VrfyMD) × SendBuf :=
  match idle with
  | .early s => let (r, send) := H.verifyS s w ps send; (.early r, send)
  | .greeted s => let (r, send) := H.verifyS s w ps send; (.greeted r, send)
  | .mail m => let (r, send) := H.verifyM m w ps send; (.mail r, send)

/-- Vrfy::process. -/
def Vrfy.process {P : Proto}
    (lv : Level (Hesitant P.S P.VrfySD) (Hesitant P.M P.VrfyMD))
    (send : SendBuf) : SState P × SAction × SendBuf :=
  match lv with
  | .early (.Final s) => (.idle (.early s), .write, send)
  | .early (.Defer d) => (.wait (.vrfy (.early d)), .wait, send)
  | .greeted (.Final s) => (.idle (.greeted s), .write, send)
  | .greeted (.Defer d) => (.wait (.vrfy (.greeted d)), .wait, send)
  | .mail (.Final m) => (.idle (.mail m), .write, send)
  | .mail (.Defer d) => (.wait (.vrfy (.mail d)), .wait, send)

/-- Vrfy::wakeup. -/
def Vrfy.wakeupH {P : Proto} (H : Handlers P) (w : Level P.VrfySD P.VrfyMD)
    (send : SendBuf) :
    Level (Hesitant P.S P.VrfySD) (Hesitant P.M P.VrfyMD) × SendBuf :=
  match w with
  | .early d => let (r, send) := H.verifySWakeup d send; (.early r, send)
  | .greeted d => let (r, send) := H.verifySWakeup d send; (.greeted r, send)
  | .mail d => let (r, send) := H.verifyMWakeup d send; (.mail r, send)

/-- Expn::recv. -/
def Expn.recvH {P : Proto} (H : Handlers P) (idle : IdleL P) (w : Syn.Word)
    (ps : Syn.ExpnParams) (send : SendBuf) :
    Level (Hesitant P.S P.ExpnSD) (Hesitant P.M P.ExpnMD) × SendBuf :=
  match idle with
  | .early s => let (r, send) := H.expandS s w ps send; (.early r, send)
  | .greeted s => let (r, send) := H.expandS s w ps send; (.greeted r, send)
  | .mail m => let (r, send) := H.expandM m w ps send; (.mail r, send)

/-- Expn::process. -/
def Expn.process {P : Proto}
    (lv : Level (Hesitant P.S P.ExpnSD) (Hesitant P.M P.ExpnMD))
    (send : SendBuf) : SState P × SAction × SendBuf :=
  match lv with
  | .early (.Final s) => (.idle (.early s), .write, send)
  | .early (.Defer d) => (.wait (.expn (.early d)), .wait, send)
  | .greeted (.Final s) => (.idle (.greeted s), .write, send)
  | .greeted (.Defer d) => (.wait (.expn (.greeted d)), .wait, send)
  | .mail (.Final m) => (.idle (.mail m), .write, send)
  | .mail (.Defer d) => (.wait (.expn (.mail d)), .wait, send)

/-- Expn::wakeup. -/
def Expn.wakeupH {P : Proto} (H : Handlers P) (w : Level P.ExpnSD P.ExpnMD)
    (send : SendBuf) :
    Level (Hesitant P.S P.ExpnSD) (Hesitant P.M P.ExpnMD) × SendBuf :=
  match w with
  | .early d => let (r, send) := H.expandSWakeup d send; (.early r, send)
  | .greeted d => let (r, send) := H.expandSWakeup d send; (.greeted r, send)
  | .mail d => let (r, send) := H.expandMWakeup d send; (.mail r, send)

/-- Help::recv. -/
def Help.recvH {P : Proto} (H : Handlers P) (idle : IdleL P)
    (w : Option Syn.Word) (send : SendBuf) :
    Level (Hesitant P.S P.HelpSD) (Hesitant P.M P.HelpMD) × SendBuf :=
  match idle with
  | .early s => let (r, send) := H.helpS s w send; (.early r, send)
  | .greeted s => let (r, send) := H.helpS s w send; (.greeted r, send)
  | .mail m => let (r, send) := H.helpM m w send; (.mail r, send)

/-- Help::process (HELP_ACTION is Write). -/
def Help.process {P : Proto}
    (lv : Level (Hesitant P.S P.HelpSD) (Hesitant P.M P.HelpMD))
    (send : SendBuf) : SState P × SAction × SendBuf :=
  match lv with
  | .early (.Final s) => (.idle (.early s), .write, send)
  | .early (.Defer d) => (.wait (.help (.early d)), .wait, send)
  | .greeted (.Final s) => (.idle (.greeted s), .write, send)
  | .greeted (.Defer d) => (.wait (.help (.greeted d)), .wait, send)
  | .mail (.Final m) => (.idle (.mail m), .write, send)
  | .mail (.Defer d) => (.wait (.help (.mail d)), .wait, send)

/-- Help::wakeup. -/
def Help.wakeupH {P : Proto} (H : Handlers P) (w : Level P.HelpSD P.HelpMD)
    (send : SendBuf) :
    Level (Hesitant P.S P.HelpSD) (Hesitant P.M P.HelpMD) × SendBuf :=
  match w with
  | .early d => let (r, send) := H.helpSWakeup d send; (.early r, send)
  | .greeted d => let (r, send) := H.helpSWakeup d send; (.greeted r, send)
  | .mail d => let (r, send) := H.helpMWakeup d send; (.mail r, send)

/-- CheckTls::recv: a mail transaction is reset first. -/
def CheckTls.recvH {P : Proto} (H : Handlers P) (idle : IdleL P)
    (cert : Option P.Cert) : Hesitant (Option P.S) P.CheckTlsD :=
  let session := match idle with
    | .early s => s
    | .greeted s => s
    | .mail m => H.reset m
  H.checkTls session cert

/-- CheckTls::process. -/
def CheckTls.process {P : Proto} (hes : Hesitant (Option P.S) P.CheckTlsD)
    (send : SendBuf) : SState P × SAction × SendBuf :=
  match hes with
  | .Final (some s) => (.idle (.early s), .read, send)
  | .Final none => (.dead, .read, send)
  | .Defer d => (.wait (.checkTls d), .wait, send)

/-- DataComplete::recv + process in one step: the data sink's complete
handler runs with a ReplyBuf; Final goes back to greeted with Collect,
Defer waits. -/
def DataComplete.step {P : Proto} (H : Handlers P) (d : P.D) (send : SendBuf) :
    SState P × SAction × SendBuf :=
  let (r, send) := H.complete d send
  match r with
  | .Final s => (.idle (.greeted s), .collect, send)
  | .Defer dd => (.wait (.dataComplete dd), .wait, send)

/-- DataComplete::process alone, for the wakeup path. -/
def DataComplete.process {P : Proto} (hes : Hesitant P.S P.CompleteD)
    (send : SendBuf) : SState P × SAction × SendBuf :=
  match hes with
  | .Final s => (.idle (.greeted s), .collect, send)
  | .Defer dd => (.wait (.dataComplete dd), .wait, send)

/-- The match over parsed commands inside Idle::recv (the closure passed to
parse_command); None is a not yet complete line. -/
def Idle.recvCmd {P : Proto} (H : Handlers P) (cfg : Config) (idle : IdleL P)
    (cmd : Option Syn.Command) (send : SendBuf) (isSecure : Bool) :
    SState P × SAction × SendBuf :=
  match cmd with
  | some (.helo d) => Helo.process (Helo.recvH H idle d) send cfg
  | some (.ehlo d) => Ehlo.process (Ehlo.recvH H idle d) send cfg isSecure
  | some (.mail p ps) =>
      let (r, send) := Mail.recvH H idle p ps send
      Mail.process r send
  | some (.rcpt p ps) =>
      let (r, send) := Rcpt.recvH H idle p ps send
      Rcpt.process r send
  | some .data =>
      let (r, send) := Data.recvH H idle send
      Data.process r send
  | some .rset => Rset.recvH H idle send
  | some (.vrfy w ps) =>
      let (r, send) := Vrfy.recvH H idle w ps send
      Vrfy.process r send
  | some (.expn w ps) =>
      let (r, send) := Expn.recvH H idle w ps send
      Expn.process r send
  | some (.help w) =>
      let (r, send) := Help.recvH H idle w send
      Help.process r send
  | some .noop =>
      (.idle idle, .write, send.reply 250 (2, 2, 0) (bs "Ok\r\n"))
  | some .quit =>
      (.dead, .close, send.reply 221 (2, 0, 0) (bs "Bye\r\n"))
  | some .startTls =>
      if isSecure then
        (.idle idle, .write,
          send.reply 500 (5, 5, 2) (bs "Unrecognized command\r\n"))
      else
        (.idle idle, .startTls,
          send.reply 220 (2, 7, 0) (bs "Ready to start TLS\r\n"))
  | some (.auth _ _) =>
      (.idle idle, .write,
        send.reply 500 (5, 5, 2) (bs "Unrecognized command.\r\n"))
  | some .unrecognized =>
      (.idle idle, .write,
        send.reply 500 (5, 5, 2) (bs "Unrecognized command.\r\n"))
  | some .parameterError =>
      (.idle idle, .write,
        send.reply 501 (5, 5, 4) (bs "Error in command parameters.\r\n"))
  | none => (.idle idle, .read, send)

/-- The match over parsed commands inside Session::recv_dead: the state
stays Dead whatever arrives; no handler is consulted. -/
def Session.recvDeadCmd (cmd : Option Syn.Command) (send : SendBuf) :
    SAction × SendBuf :=
  match cmd with
  | some .quit => (.close, send.reply 221 (2, 0, 0) (bs "Bye\r\n"))
  | some .unrecognized =>
      (.write, send.reply 500 (5, 5, 2) (bs "Unrecognized command.\r\n"))
  | some .parameterError =>
      (.write, send.reply 501 (5, 5, 4) (bs "Error in command parameters.\r\n"))
  | some _ =>
      (.write, send.reply 503 (5, 5, 1) (bs "Please leave now\r\n"))
  | none => (.write, send)

/-- ReadData::recv: with a terminator at idx, chunk the bytes before it,
consume through the terminator and complete; without one, chunk everything
but the last five bytes (nothing when fewer than five are buffered), retain
the rest and keep reading. -/
def ReadData.recv {P : Proto} (H : Handlers P) (d : P.D) (recv : RecvBuf)
    (send : SendBuf) : SState P × SAction × RecvBuf × SendBuf :=
  match recv.findDataEnd with
  | some idx =>
      let d := H.chunk d (recv.asSlice.take idx)
      let recv := recv.advance (idx + 5)
      let (st, a, send) := DataComplete.step H d send
      (st, a, recv, send)
  | none =>
      let slice := recv.asSlice
      let e := if 5 ≤ slice.length then slice.length - 5 else 0
      let d := if 5 ≤ slice.length then H.chunk d (slice.take e) else d
      (.data d, .read, recv.advance e, send)

/-- Wait::wakeup - dispatch the pending defer to its wakeup and then to the
same process step the original call would have used. -/
def WaitSt.wakeupStep {P : Proto} (H : Handlers P) (w : WaitSt P)
    (send : SendBuf) (cfg : Config) (isSecure : Bool) :
    SState P × SAction × SendBuf :=
  match w with
  | .start d => Start.process (H.startWakeup d) send cfg
  | .helo d => Helo.process (H.helloWakeup d) send cfg
  | .ehlo d => Ehlo.process (H.helloWakeup d) send cfg isSecure
  | .mail d =>
      let (r, send) := H.mailWakeup d send
      Mail.process (r.mapFinal Mail.translate) send
  | .rcpt d =>
      let (r, send) := H.recipientWakeup d send
      Rcpt.process (r.mapFinal Rcpt.translate) send
  | .data d =>
      Data.process ((H.dataWakeup d).mapFinal Data.translate) send
  | .vrfy wv =>
      let (r, send) := Vrfy.wakeupH H wv send
      Vrfy.process r send
  | .expn wv =>
      let (r, send) := Expn.wakeupH H wv send
      Expn.process r send
  | .help wv =>
      let (r, send) := Help.wakeupH H wv send
      Help.process r send
  | .checkTls d => CheckTls.process (H.checkTlsWakeup d) send
  | .dataComplete d =>
      let (r, send) := H.completeWakeup d send
      DataComplete.process r send

/-- Modelled from the spec: the outcome of RecvBuf::parse_command, whose
definition is not part of the source tree.  It either fails unrecoverably,
reports that no complete command line is buffered yet, or yields one parsed
command together with the buffer state after consuming its line. -/
inductive ParseOutcome where
  | fail
  | needMore
  | cmd (c : Syn.Command) (next : RecvBuf)

/-- Modelled from the spec: a command parser over the receive buffer.  The
session machine is stated parametrically over it. -/
abbrev ParseFn := RecvBuf → ParseOutcome

/-- Session::recv: Idle parses and dispatches one command (a parse failure
kills the connection), Wait ignores everything until the wakeup, Data runs
the body scan, Dead answers without consulting any handler. -/
def Session.recv {P : Proto} (H : Handlers P) (cfg : Config) (parse : ParseFn)
    (st : SState P) (recv : RecvBuf) (send : SendBuf) (isSecure : Bool) :
    SState P × SAction × RecvBuf × SendBuf :=
  match st with
  | .idle idle =>
      match parse recv with
      | .fail => (.dead, .close, recv, send)
      | .needMore =>
          let (st, a, send) := Idle.recvCmd H cfg idle none send isSecure
          (st, a, recv, send)
      | .cmd c next =>
          let (st, a, send) := Idle.recvCmd H cfg idle (some c) send isSecure
          (st, a, next, send)
  | .wait w => (.wait w, .wait, recv, send)
  | .data d => ReadData.recv H d recv send
  | .dead =>
      match parse recv with
      | .fail => (.dead, .close, recv, send)
      | .needMore =>
          let (a, send) := Session.recvDeadCmd none send
          (.dead, a, recv, send)
      | .cmd c next =>
          let (a, send) := Session.recvDeadCmd (some c) send
          (.dead, a, next, send)

/-- Session::wakeup: only a waiting session reacts; anything else just
keeps reading. -/
def Session.wakeup {P : Proto} (H : Handlers P) (cfg : Config) (st : SState P)
    (send : SendBuf) (isSecure : Bool) : SState P × SAction × SendBuf :=
  match st with
  | .wait w => WaitSt.wakeupStep H w send cfg isSecure
  | st => (st, .read, send)

/-- Session::new: run the start handler and process its result (the rotor
notifier handle is elided). -/
def Session.new {P : Proto} (H : Handlers P) (cfg : Config) (seed : P.Seed)
    (send : SendBuf) : SState P × SAction × SendBuf :=
  Start.process (H.start seed) send cfg

/-! ## smtp/protocol.rs with util/abnf/core.rs

The verb-level command parser.  nom's IResult is modelled with the error
kind and needed-size payloads dropped: alt! tries the next branch on any
Error and returns Incomplete as is, which is all the control flow the
combinators below use (nom 1.x semantics).  The per-argument grammars
(Domain, MailboxDomain, ReversePath, MailParameters, RcptPath,
RcptParameters, Word, VrfyParameters, ExpnParameters), defined in separate
impl blocks of protocol.rs, are abstracted as a parameter bundle: all
theorems about Command::parse are stated for every such bundle, because the
inputs they concern are decided before any of them runs. -/

/-- nom::IResult with payloads of Error and Incomplete dropped. -/
inductive IRes (α : Type) where
  | done (rest : List Nat) (v : α)
  | error
  | incomplete
deriving DecidableEq

/-- Sequencing inside chain!: feed the rest and the value onward. -/
def IRes.andThen {α β : Type} (x : IRes α) (f : List Nat → α → IRes β) :
    IRes β :=
  match x with
  | .done rest v => f rest v
  | .error => .error
  | .incomplete => .incomplete

/-- One alt! step: on Error try the second branch, else keep the result. -/
def IRes.orTry {α : Type} (x y : IRes α) : IRes α :=
  match x with
  | .error => y
  | x => x

/-- opt! - an Error becomes None without consuming, Incomplete stays. -/
def popt {α : Type} (p : List Nat → IRes α) (input : List Nat) :
    IRes (Option α) :=
  match p input with
  | .done rest v => .done rest (some v)
  | .error => .done input none
  | .incomplete => .incomplete

/-- ASCII lower-casing, for eq_ignore_ascii_case. -/
def asciiLower (c : Nat) : Nat :=
  if 65 ≤ c ∧ c ≤ 90 then c + 32 else c

/-- abnf::core::text - case-insensitive literal: compare the common prefix,
then Error on mismatch, Incomplete when the input is shorter, Done with the
matched bytes otherwise. -/
def pText (input pat : List Nat) : IRes (List Nat) :=
  let minlen := min input.length pat.length
  let reduced := input.take minlen
  if ¬ (reduced.map asciiLower = (pat.take minlen).map asciiLower) then .error
  else if minlen < pat.length then .incomplete
  else .done (input.drop pat.length) reduced

/-- abnf::core::cat_chrs - the longest nonempty prefix passing the test
(Error when the first byte fails, everything on full consumption). -/
def catChrs (input : List Nat) (f : Nat → Bool) : IRes (List Nat) :=
  match input.findIdx? (fun c => ! f c) with
  | some 0 => .error
  | some idx => .done (input.drop idx) (input.take idx)
  | none => .done [] input

/-- abnf::core::nm_cat_chrs - between n and m bytes passing the test; the
source's loop stops with m bytes as soon as an (m+1)th passing byte is
seen, errors on a failure before n bytes, and reports Incomplete when the
input ends before either bound is resolved. -/
def nmCatChrs (input : List Nat) (n m : Nat) (f : Nat → Bool) :
    IRes (List Nat) :=
  match input.findIdx? (fun c => ! f c) with
  | some idx =>
      if m < idx then .done (input.drop m) (input.take m)
      else if idx < n then .error
      else .done (input.drop idx) (input.take idx)
  | none =>
      if m < input.length then .done (input.drop m) (input.take m)
      else .incomplete

/-- WSP test. -/
def testWsp (c : Nat) : Bool :=
  c == 32 || c == 9

/-- abnf::core::wsps - 1*WSP. -/
def wspsP (input : List Nat) : IRes (List Nat) :=
  catChrs input testWsp

/-- abnf::core::opt_wsps - *WSP. -/
def optWspsP (input : List Nat) : IRes (List Nat) :=
  match input.findIdx? (fun c => ! testWsp c) with
  | some idx => .done (input.drop idx) (input.take idx)
  | none => .done [] input

/-- abnf::core::crlf - the tag CRLF. -/
def crlfP (input : List Nat) : IRes (List Nat) :=
  if input.length < 2 then .incomplete
  else if input.take 2 = [13, 10] then .done (input.drop 2) [13, 10]
  else .error

/-- abnf::core::wspcrlf - *WSP CRLF into nothing. -/
def wspcrlfP (input : List Nat) : IRes Unit :=
  (optWspsP input).andThen fun rest _ =>
    (crlfP rest).andThen fun rest _ => .done rest ()

/-- Position of the first occurrence of pat as a subsequence window. -/
def findSubAux (pat : List Nat) : List Nat → Nat → Option Nat
  | [], i => if ([] : List Nat).take pat.length = pat then some i else none
  | c :: t, i =>
      if (c :: t).take pat.length = pat then some i
      else findSubAux pat t (i + 1)

/-- take_until_and_consume! - everything before the first occurrence of pat,
which is consumed too; Incomplete when pat does not occur. -/
def takeUntilConsume (pat input : List Nat) : IRes (List Nat) :=
  match findSubAux pat input 0 with
  | some i => .done (input.drop (i + pat.length)) (input.take i)
  | none => .incomplete

/-- test_atext from protocol.rs. -/
def testAtext (c : Nat) : Bool :=
  (33 ≤ c && c ≤ 39) || c == 42 || c == 43 || c == 45 ||
    (47 ≤ c && c ≤ 57) || c == 61 || c == 63 || (65 ≤ c && c ≤ 90) ||
    (94 ≤ c && c ≤ 126) || 128 ≤ c

/-- atom from protocol.rs. -/
def atomP (input : List Nat) : IRes (List Nat) :=
  catChrs input testAtext

/-- abnf::core::u64_digits - 1 to 20 digits into a number; a value beyond
u64::MAX makes from_str_radix fail. -/
def u64Digits (input : List Nat) : IRes Nat :=
  (nmCatChrs input 1 20 (fun c => 48 ≤ c && c ≤ 57)).andThen fun rest ds =>
    let v := ds.foldl (fun acc c => 10 * acc + (c - 48)) 0
    if v ≤ 18446744073709551615 then .done rest v else .error

/-- CommandError from protocol.rs. -/
inductive CommandErrorP where
  | unrecognized
  | parameters
deriving DecidableEq

/-- Command from protocol.rs (payloads as the byte regions or tokens the
abstracted sub-grammars yield). -/
inductive CommandP where
  | ehlo (d : List Nat)
  | helo (d : List Nat)
  | mail (path : List Nat) (params : List Nat)
  | rcpt (path : List Nat) (params : List Nat)
  | data
  | rset
  | vrfy (w : List Nat) (params : List Nat)
  | expn (w : List Nat) (params : List Nat)
  | help (w : Option (List Nat))
  | noop
  | quit
  | bdat (size : Nat) (last : Bool)
  | startTls
  | auth (mechanism : List Nat) (initial : Option (List Nat))
deriving DecidableEq

/-- Result of Command::parse - Ok(command) or Err(command error). -/
inductive CmdResult where
  | ok (c : CommandP)
  | err (e : CommandErrorP)
deriving DecidableEq

/-- The abstracted sub-grammar parsers of protocol.rs. -/
structure SubGrammar where
  mailboxDomain : List Nat → IRes (List Nat)
  domain : List Nat → IRes (List Nat)
  reversePath : List Nat → IRes (List Nat)
  mailParams : List Nat → IRes (List Nat)
  rcptPath : List Nat → IRes (List Nat)
  rcptParams : List Nat → IRes (List Nat)
  word : List Nat → IRes (List Nat)
  vrfyParams : List Nat → IRes (List Nat)
  expnParams : List Nat → IRes (List Nat)

/-- The command! macro: verb, 1*WSP, the argument grammar, *WSP CRLF, into
Ok; or verb then the rest of the line into Err(Parameters). -/
def commandB {α : Type} (verb : List Nat) (sub : List Nat → IRes α)
    (mk : α → CommandP) (input : List Nat) : IRes CmdResult :=
  IRes.orTry
    ((pText input verb).andThen fun rest _ =>
      (wspsP rest).andThen fun rest _ =>
        (sub rest).andThen fun rest v =>
          (wspcrlfP rest).andThen fun rest _ => .done rest (.ok (mk v)))
    ((pText input verb).andThen fun rest _ =>
      (takeUntilConsume [13, 10] rest).andThen fun rest _ =>
        .done rest (.err .parameters))

/-- The empty_command! macro: verb then *WSP CRLF into Ok(result), or verb
then the rest of the line into Err(Parameters). -/
def emptyCommandB (verb : List Nat) (result : CommandP) (input : List Nat) :
    IRes CmdResult :=
  (pText input verb).andThen fun rest _ =>
    IRes.orTry
      ((wspcrlfP rest).andThen fun rest _ => .done rest (.ok result))
      ((takeUntilConsume [13, 10] rest).andThen fun rest _ =>
        .done rest (.err .parameters))

/-- MAIL arguments: FROM: then reverse path then parameters. -/
def mailArgs (G : SubGrammar) (input : List Nat) :
    IRes (List Nat × List Nat) :=
  (pText input (bs "FROM:")).andThen fun rest _ =>
    (G.reversePath rest).andThen fun rest p =>
      (G.mailParams rest).andThen fun rest ps => .done rest (p, ps)

/-- RCPT arguments: TO: then path then parameters. -/
def rcptArgs (G : SubGrammar) (input : List Nat) :
    IRes (List Nat × List Nat) :=
  (pText input (bs "TO:")).andThen fun rest _ =>
    (G.rcptPath rest).andThen fun rest p =>
      (G.rcptParams rest).andThen fun rest ps => .done rest (p, ps)

/-- VRFY arguments: word then parameters. -/
def vrfyArgs (G : SubGrammar) (input : List Nat) :
    IRes (List Nat × List Nat) :=
  (G.word input).andThen fun rest w =>
    (G.vrfyParams rest).andThen fun rest ps => .done rest (w, ps)

/-- EXPN arguments: word then parameters. -/
def expnArgs (G : SubGrammar) (input : List Nat) :
    IRes (List Nat × List Nat) :=
  (G.word input).andThen fun rest w =>
    (G.expnParams rest).andThen fun rest ps => .done rest (w, ps)

/-- BDAT arguments: size then the optional LAST flag. -/
def bdatArgs (input : List Nat) : IRes (Nat × Bool) :=
  (u64Digits input).andThen fun rest size =>
    (popt (fun i =>
        (wspsP i).andThen fun rest _ =>
          (pText rest (bs "LAST")).andThen fun rest _ => .done rest ())
      rest).andThen fun rest last =>
      .done rest (size, last.isSome)

/-- AUTH arguments: mechanism atom, whitespace, optional initial atom. -/
def authArgs (input : List Nat) : IRes (List Nat × Option (List Nat)) :=
  (atomP input).andThen fun rest mech =>
    (wspsP rest).andThen fun rest _ =>
      (popt atomP rest).andThen fun rest initial =>
        .done rest (mech, initial)

/-- Command::parse - the alt! over all command branches, in source order.
The sixth branch spells the verb DATA although it yields Command::Rset, and
the QUIT branch yields Command::Noop; both are kept exactly as the source
has them. -/
def CommandP.parse (G : SubGrammar) (input : List Nat) : IRes CmdResult :=
  IRes.orTry (commandB (bs "EHLO") G.mailboxDomain CommandP.ehlo input) <|
  IRes.orTry (commandB (bs "HELO") G.domain CommandP.helo input) <|
  IRes.orTry (commandB (bs "MAIL") (mailArgs G)
    (fun v => CommandP.mail v.1 v.2) input) <|
  IRes.orTry (commandB (bs "RCPT") (rcptArgs G)
    (fun v => CommandP.rcpt v.1 v.2) input) <|
  IRes.orTry (emptyCommandB (bs "DATA") CommandP.data input) <|
  IRes.orTry (emptyCommandB (bs "DATA") CommandP.rset input) <|
  IRes.orTry (commandB (bs "VRFY") (vrfyArgs G)
    (fun v => CommandP.vrfy v.1 v.2) input) <|
  IRes.orTry (commandB (bs "EXPN") (expnArgs G)
    (fun v => CommandP.expn v.1 v.2) input) <|
  IRes.orTry (commandB (bs "HELP") (popt G.word) CommandP.help input) <|
  IRes.orTry (emptyCommandB (bs "NOOP") CommandP.noop input) <|
  IRes.orTry (emptyCommandB (bs "QUIT") CommandP.noop input) <|
  IRes.orTry (commandB (bs "BDAT") bdatArgs
    (fun v => CommandP.bdat v.1 v.2) input) <|
  IRes.orTry (emptyCommandB (bs "STARTTLS") CommandP.startTls input) <|
  commandB (bs "AUTH") authArgs (fun v => CommandP.auth v.1 v.2) input

/-! ## A concrete protocol instantiation

For concrete evaluations the Proto bundle is instantiated with small types:
the session handler is a number, the mail transaction counts its accepted
recipients, the data sink records the recipient count at DATA acceptance
and every byte chunked into it.  The handler behaviour mirrors null.rs
(NullProtocol and NullMail): hello and data always accept, MAIL, RCPT and
complete answer 250 2.1.0 Ok, VRFY and EXPN answer 252, HELP answers 214. -/

/-- The concrete Proto bundle. -/
abbrev MP : Proto where
  S := Nat
  M := Nat
  D := Nat × List Nat
  Seed := Nat
  Cert := Unit
  StartD := Nat
  HelloD := Nat
  MailD := Nat
  RcptD := Nat
  DataD := Nat
  CompleteD := Nat
  CheckTlsD := Nat
  VrfySD := Nat
  VrfyMD := Nat
  ExpnSD := Nat
  ExpnMD := Nat
  HelpSD := Nat
  HelpMD := Nat

/-- The 250 2.1.0 Ok reply NullMail writes. -/
def ok210 (send : SendBuf) : SendBuf :=
  send.reply 250 (2, 1, 0) (bs "Ok\r\n")

/-- The always-accepting concrete handlers. -/
def MH : Handlers MP where
  start seed := .Final (some seed)
  startWakeup _ := .Final (some 0)
  hello s _ := .Final (some s)
  helloWakeup _ := .Final (some 0)
  checkTls s _ := .Final (some s)
  checkTlsWakeup _ := .Final (some 0)
  mail _ _ _ send := (.Final (.ok 0), ok210 send)
  mailWakeup _ send := (.Final (.ok 0), ok210 send)
  recipient m _ _ send := (.Final (.ok (m + 1)), ok210 send)
  recipientWakeup _ send := (.Final (.ok 1), ok210 send)
  data m := .Final (.ok (m, []))
  dataWakeup _ := .Final (.ok (0, []))
  reset _ := 0
  chunk d bytes := (d.1, d.2 ++ bytes)
  complete _ send := (.Final 0, ok210 send)
  completeWakeup _ send := (.Final 0, ok210 send)
  verifyS s _ _ send :=
    (.Final s, send.reply 252 (2, 7, 0) (bs "VRFY administratively disabled\r\n"))
  verifyM m _ _ send :=
    (.Final m, send.reply 252 (2, 7, 0) (bs "VRFY administratively disabled\r\n"))
  verifySWakeup _ send := (.Final 0, send)
  verifyMWakeup _ send := (.Final 0, send)
  expandS s _ _ send :=
    (.Final s, send.reply 252 (2, 7, 0) (bs "EXPN administratively disabled\r\n"))
  expandM m _ _ send :=
    (.Final m, send.reply 252 (2, 7, 0) (bs "EXPN administratively disabled\r\n"))
  expandSWakeup _ send := (.Final 0, send)
  expandMWakeup _ send := (.Final 0, send)
  helpS s _ send :=
    (.Final s, send.reply 214 (2, 0, 0) (bs "This SMTP server eats your mail.\r\n"))
  helpM m _ send :=
    (.Final m, send.reply 214 (2, 0, 0) (bs "This SMTP server eats your mail.\r\n"))
  helpSWakeup _ send := (.Final 0, send)
  helpMWakeup _ send := (.Final 0, send)

/-- Handlers that deliver the bytes collected by the data sink into the
send buffer on completion, so a run exhibits exactly what was chunked. -/
def MHecho : Handlers MP :=
  { MH with complete := fun d send => (.Final 0, send ++ d.2) }

/-- Handlers whose hello handler rejects (Final(None)). -/
def MHrej : Handlers MP :=
  { MH with
      hello := fun _ _ => .Final none,
      mail := fun s _ _ send => (.Final (.error s), send) }

/-- A concrete configuration. -/
def cfg0 : Config :=
  { hostname := bs "mail.example", systemname := bs "Cloudship",
    sizeLimit := 10 }

/-- Run a sequence of already parsed commands against the machine, using
Idle::recv dispatch while the session is idle (a test harness around
Idle.recvCmd). -/
def stepCmd {P : Proto} (H : Handlers P) (cfg : Config) (sec : Bool)
    (st : SState P × SAction × SendBuf) (cmd : Syn.Command) :
    SState P × SAction × SendBuf :=
  match st with
  | (.idle l, _, send) => Idle.recvCmd H cfg l (some cmd) send sec
  | st => st

/-- Fold stepCmd over a command list, starting from Session::new. -/
def runCmds {P : Proto} (H : Handlers P) (cfg : Config) (seed : P.Seed)
    (cmds : List Syn.Command) (sec : Bool) : SState P × SAction × SendBuf :=
  cmds.foldl (stepCmd H cfg sec) (Session.new H cfg seed [])

/-- Handlers whose mail handler defers, with a wakeup that accepts. -/
def MHdef : Handlers MP :=
  { MH with
      mail := fun _ _ _ send => (.Defer 7, send),
      mailWakeup := fun _ send => (.Final (.ok 3), ok210 send) }

/-- Does the state carry a live mail transaction (level InMail)? -/
def SState.isMailLevel {P : Proto} : SState P → Bool
  | .idle (.mail _) => true
  | _ => false

/-! ## Theorems for the claims -/

/-- C1: the claim says body lines beginning with two dots are translated to
a single leading dot before the bytes reach the DataSink.  ReadData::recv
forwards the bytes before the terminator verbatim: for the received body
"..x" CRLF-dot-CRLF, the bytes handed to chunk (echoed into the send buffer
by the completion handler of MHecho) are exactly 46 46 120, that is "..x"
with both dots, where the claim demands ".x". -/
theorem c1_dot_unstuffing_missing :
    ReadData.recv MHecho (0, []) ⟨[46, 46, 120] ++ dataTerm, 0⟩ [] =
      (.idle (.greeted 0), .collect, RecvBuf.clear, [46, 46, 120])
    ∧ [46, 46, 120] ≠ [46, 120] :=
  ⟨rfl, by decide⟩

/-- C2 counterexample: for the terminator-free buffer "abcdef" (six bytes)
the claim demands that all but the last four bytes, "ab", are forwarded and
four bytes retained; ReadData::recv forwards only "a" (byte 97) and the
retained slice has five bytes. -/
theorem c2_counterexample :
    ReadData.recv MHecho (0, []) ⟨bs "abcdef", 0⟩ [] =
      (.data (0, [97]), .read, ⟨bs "abcdef", 1⟩, [])
    ∧ (RecvBuf.mk (bs "abcdef") 1).asSlice.length = 5
    ∧ [97] ≠ (bs "abcdef").take ((bs "abcdef").length - 4) :=
  ⟨rfl, by decide, by decide⟩

/-- The unconsumed bytes are the buffer length of RecvBuf::len. -/
theorem RecvBuf.length_asSlice (b : RecvBuf) : b.asSlice.length = b.len := by
  simp [RecvBuf.asSlice, RecvBuf.len]

/-- Advancing by zero leaves the unconsumed bytes unchanged (also through
the clearing of a fully drained buffer). -/
theorem RecvBuf.advance_zero_asSlice (b : RecvBuf) :
    (b.advance 0).asSlice = b.asSlice := by
  obtain ⟨inner, rpos⟩ := b
  simp only [RecvBuf.advance, RecvBuf.isEmpty, RecvBuf.clear, RecvBuf.asSlice]
  by_cases hle : inner.length ≤ rpos
  · have h1 : min inner.length (rpos + 0) = inner.length := by omega
    rw [h1]
    simp [hle]
  · have hmin : min inner.length (rpos + 0) = rpos := by omega
    have hne : ¬ (rpos = inner.length) := by omega
    rw [hmin]
    simp [hne]

/-- C2 amended: on a receive in the data state whose buffer holds no
terminator, with at least five bytes buffered everything except the last
five bytes is forwarded to the DataSink in one chunk and exactly those
five bytes are retained; with fewer than five bytes buffered nothing is
forwarded (the sink is untouched) and the whole buffer content is
retained. -/
theorem c2_retains_five {P : Proto} (H : Handlers P) (d : P.D) (b : RecvBuf)
    (send : SendBuf) (hterm : b.findDataEnd = none) :
    (5 ≤ b.len →
      ReadData.recv H d b send =
        (.data (H.chunk d (b.asSlice.take (b.len - 5))), .read,
          b.advance (b.len - 5), send)
      ∧ (b.advance (b.len - 5)).asSlice = b.asSlice.drop (b.len - 5)
      ∧ (b.advance (b.len - 5)).asSlice.length = 5)
    ∧ (b.len < 5 →
      ReadData.recv H d b send = (.data d, .read, b.advance 0, send)
      ∧ (b.advance 0).asSlice = b.asSlice) := by
  constructor
  · intro h5
    obtain ⟨inner, rpos⟩ := b
    have hlen : (RecvBuf.mk inner rpos).asSlice.length = (RecvBuf.mk inner rpos).len :=
      RecvBuf.length_asSlice _
    simp only [RecvBuf.len] at h5 hlen ⊢
    have hr5 : rpos + 5 ≤ inner.length := by omega
    have hadv : (RecvBuf.mk inner rpos).advance (inner.length - rpos - 5) =
        RecvBuf.mk inner (inner.length - 5) := by
      simp only [RecvBuf.advance, RecvBuf.isEmpty, RecvBuf.clear]
      have : min inner.length (rpos + (inner.length - rpos - 5)) = inner.length - 5 := by
        omega
      rw [this]
      have hne : ¬ (inner.length - 5 = inner.length) := by omega
      simp [hne]
    refine ⟨?_, ?_, ?_⟩
    · simp only [ReadData.recv, hterm]
      rw [hlen]
      have h5' : 5 ≤ inner.length - rpos := h5
      simp only [h5', if_pos]
    · rw [hadv]
      simp only [RecvBuf.asSlice, List.drop_drop]
      congr 1
      omega
    · rw [hadv]
      simp only [RecvBuf.asSlice, List.length_drop]
      omega
  · intro hlt
    refine ⟨?_, RecvBuf.advance_zero_asSlice b⟩
    simp only [ReadData.recv, hterm]
    have h5 : ¬ (5 ≤ b.asSlice.length) := by
      rw [RecvBuf.length_asSlice]
      omega
    simp [h5]

/-- C2 amended, witnessed at the six-byte buffer "abcdef" (one byte
forwarded, five retained) and at the two-byte buffer "ab" (nothing
forwarded, everything retained). -/
theorem c2_retains_five_witness :
    (RecvBuf.mk (bs "abcdef") 0).findDataEnd = none
    ∧ ReadData.recv MHecho (0, []) ⟨bs "abcdef", 0⟩ [] =
      (.data (MHecho.chunk (0, [])
          ((RecvBuf.mk (bs "abcdef") 0).asSlice.take
            ((RecvBuf.mk (bs "abcdef") 0).len - 5))), .read,
        (RecvBuf.mk (bs "abcdef") 0).advance ((RecvBuf.mk (bs "abcdef") 0).len - 5),
        [])
    ∧ ReadData.recv MHecho (0, []) ⟨bs "ab", 0⟩ [] =
      (.data (0, []), .read, (RecvBuf.mk (bs "ab") 0).advance 0, []) :=
  ⟨by decide,
    ((c2_retains_five MHecho (0, []) ⟨bs "abcdef", 0⟩ [] (by decide)).1
      (by decide)).1,
    ((c2_retains_five MHecho (0, []) ⟨bs "ab", 0⟩ [] (by decide)).2
      (by decide)).1⟩

set_option maxHeartbeats 2000000 in
/-- C3: the claim says a body exceeding message_size_limit must produce a
552 reply at completion, the transaction dropped, and complete called with
a failure indicator.  The machine never consults the limit in the data
phase: receive in the data state is identical under any two limits, and a
concrete 20-byte body against the limit 10 of cfg0 completes normally with
the handler's 250 reply and a transition to greeted - no 552, no drop (the
complete call site in session.rs also passes no failure indicator). -/
theorem c3_size_limit_unenforced :
    (∀ (P : Proto) (H : Handlers P) (parse : ParseFn) (cfg : Config)
      (n m : Nat) (d : P.D) (b : RecvBuf) (send : SendBuf) (sec : Bool),
      Session.recv H { cfg with sizeLimit := n } parse (.data d) b send sec =
        Session.recv H { cfg with sizeLimit := m } parse (.data d) b send sec)
    ∧ (∀ parse : ParseFn,
      Session.recv MH cfg0 parse (.data (0, []))
          ⟨List.replicate 20 97 ++ dataTerm, 0⟩ [] true =
        (.idle (.greeted 0), .collect, RecvBuf.clear, bs "250 2.1.0 Ok\r\n"))
    ∧ (bs "250 2.1.0 Ok\r\n").take 3 ≠ bs "552" := by
  refine ⟨fun P H parse cfg n m d b send sec => rfl, fun parse => rfl, by decide⟩

/-- C4 counterexample: from the fresh session, the reachable trace HELO,
MAIL, DATA - with no RCPT command at all - ends with the machine in the
data state and the 354 go-ahead appended: DATA was accepted although the
transaction (whose recipient counter is the first sink component) holds
zero accepted recipients. -/
theorem c4_counterexample :
    runCmds MH cfg0 5 [.helo (bs "client.example"), .mail [] [], .data] true =
      (.data (0, []), .write,
        bs "220 mail.example ESMTP Cloudship\r\n" ++ bs "250 mail.example\r\n" ++
          bs "250 2.1.0 Ok\r\n" ++ bs "354 Go ahead.\r\n")
    ∧ (bs "354 Go ahead.\r\n").take 3 = bs "354" :=
  ⟨rfl, by decide⟩

/-- C4 amended: the machine itself enforces only that a mail transaction
exists: DATA in Early or Greeted is refused with 503 (followed by the 554
Mail failed reply of the shared rejection path in Data::process) and the
level is unchanged; in the mail level the decision is delegated to the
handler's data() without any recipient-count check. -/
theorem c4_data_needs_mail_txn {P : Proto} (H : Handlers P) (cfg : Config)
    (sec : Bool) :
    (∀ (s : P.S) (send : SendBuf),
      Idle.recvCmd H cfg (.early s) (some .data) send sec =
        (.idle (.early s), .write,
          (send.reply 503 (5, 5, 1) pleaseSayHello).reply 554 (5, 5, 0)
            (bs "Mail failed\r\n")))
    ∧ (∀ (s : P.S) (send : SendBuf),
      Idle.recvCmd H cfg (.greeted s) (some .data) send sec =
        (.idle (.greeted s), .write,
          (send.reply 503 (5, 5, 1) (bs "Need MAIL command first\r\n")).reply
            554 (5, 5, 0) (bs "Mail failed\r\n")))
    ∧ (∀ (m : P.M) (send : SendBuf),
      Idle.recvCmd H cfg (.mail m) (some .data) send sec =
        Data.process ((H.data m).mapFinal Data.translate) send) := by
  refine ⟨fun s send => ?_, fun s send => ?_, fun m send => ?_⟩ <;>
    simp only [Idle.recvCmd, Data.recvH, Data.process]

/-- C5 counterexample: a hello rejection (Final(None)) on HELO or on EHLO
moves the session to Dead with action Close and the 550 reply - the claim
says the session continues on every non-start rejection. -/
theorem c5_counterexample :
    Idle.recvCmd MHrej cfg0 (.early 4) (some (.helo (bs "x"))) [] false =
      (.dead, .close, bs "550 Rejected for policy reasons\r\n")
    ∧ Idle.recvCmd MHrej cfg0 (.greeted 4) (some (.ehlo (.domain (bs "x")))) [] false =
      (.dead, .close, bs "550 Rejected for policy reasons\r\n") :=
  ⟨rfl, rfl⟩

/-- C5 amended: a handler rejection on MAIL, RCPT or DATA keeps the session
alive (Greeted, with the handler's or the synthesized reply); a rejection
at start closes with 554; a hello rejection on HELO or EHLO closes with 550
and the state Dead. -/
theorem c5_rejection_outcomes {P : Proto} (H : Handlers P) (cfg : Config)
    (sec : Bool) :
    (∀ (s : P.S) p ps send (s' : P.S) send',
      H.mail s p ps send = (.Final (.error s'), send') →
      Idle.recvCmd H cfg (.greeted s) (some (.mail p ps)) send sec =
        (.idle (.greeted s'), .collect, send'))
    ∧ (∀ (m : P.M) p ps send (s' : P.S) send',
      H.recipient m p ps send = (.Final (.error s'), send') →
      Idle.recvCmd H cfg (.mail m) (some (.rcpt p ps)) send sec =
        (.idle (.greeted s'), .collect, send'))
    ∧ (∀ (m : P.M) send (s' : P.S),
      H.data m = .Final (.error s') →
      Idle.recvCmd H cfg (.mail m) (some .data) send sec =
        (.idle (.greeted s'), .write,
          send.reply 554 (5, 5, 0) (bs "Mail failed\r\n")))
    ∧ (∀ (seed : P.Seed) (send : SendBuf),
      H.start seed = .Final none →
      Session.new H cfg seed send =
        (.dead, .close, send ++ bs "554 5.5.0 Connection refused.\r\n"))
    ∧ (∀ (s : P.S) (d : Syn.Domain) (send : SendBuf),
      H.hello s (.domain d) = .Final none →
      Idle.recvCmd H cfg (.early s) (some (.helo d)) send sec =
        (.dead, .close,
          (ReplyW.scribbleBytes (ReplyW.new send 550 none)
            (bs "Rejected for policy reasons\r\n")).2))
    ∧ (∀ (s : P.S) (d : Syn.MailboxDomain) (send : SendBuf),
      H.hello s d = .Final none →
      Idle.recvCmd H cfg (.early s) (some (.ehlo d)) send sec =
        (.dead, .close,
          (ReplyW.scribbleBytes (ReplyW.new send 550 none)
            (bs "Rejected for policy reasons\r\n")).2)) := by
  refine ⟨fun s p ps send s' send' h => ?_, fun m p ps send s' send' h => ?_,
    fun m send s' h => ?_, fun seed send h => ?_, fun s d send h => ?_,
    fun s d send h => ?_⟩
  · simp only [Idle.recvCmd, Mail.recvH, h, Hesitant.mapFinal, Mail.translate,
      Mail.process]
  · simp only [Idle.recvCmd, Rcpt.recvH, h, Hesitant.mapFinal, Rcpt.translate,
      Rcpt.process]
  · simp only [Idle.recvCmd, Data.recvH, h, Hesitant.mapFinal, Data.translate,
      Data.process]
  · simp only [Session.new, h, Start.process]
  · simp only [Idle.recvCmd, Helo.recvH, h, Helo.process]
  · simp only [Idle.recvCmd, Ehlo.recvH, h, Ehlo.process]

/-- C5 amended, witnessed: MHrej's mail handler rejects with the session
value itself and writes nothing; the machine continues at Greeted. -/
theorem c5_rejection_outcomes_witness :
    Idle.recvCmd MHrej cfg0 (.greeted 0) (some (.mail [] [])) [] false =
      (.idle (.greeted 0), .collect, []) :=
  (c5_rejection_outcomes MHrej cfg0 false).1 0 [] [] [] 0 [] rfl

/-- C6: Command::parse never yields Command::Rset and never yields
Command::Quit: its Rset branch spells the verb DATA (so it is shadowed by
the Data branch and RSET itself matches no branch), and its QUIT branch
yields Command::Noop.  For every sub-grammar bundle, parsing RSET CRLF is
an error, parsing QUIT CRLF yields Ok(Noop), while DATA CRLF does yield
Ok(Data). -/
theorem c6_rset_quit_not_recognized (G : SubGrammar) :
    CommandP.parse G (bs "RSET\r\n") = IRes.error
    ∧ CommandP.parse G (bs "QUIT\r\n") = IRes.done [] (.ok .noop)
    ∧ CommandP.parse G (bs "DATA\r\n") = IRes.done [] (.ok .data)
    ∧ CommandP.parse G (bs "RSET\r\n") ≠ IRes.done [] (.ok .rset)
    ∧ CommandP.parse G (bs "QUIT\r\n") ≠ IRes.done [] (.ok .quit) := by
  refine ⟨rfl, rfl, rfl, ?_, ?_⟩
  · rw [show CommandP.parse G (bs "RSET\r\n") = IRes.error from rfl]
    decide
  · rw [show CommandP.parse G (bs "QUIT\r\n") = IRes.done [] (.ok .noop) from rfl]
    decide

/-- C8 counterexample: a MAIL command processed at the mail level does not
reset the transaction: the reply is 503 Nested MAIL command and the very
same transaction (here the counter value 7) is still in place, so a
MailTxn still exists afterwards. -/
theorem c8_counterexample :
    Idle.recvCmd MH cfg0 (.mail 7) (some (.mail [] [])) [] true =
      (.idle (.mail 7), .collect,
        SendBuf.reply [] 503 (5, 5, 1) (bs "Nested MAIL command\r\n"))
    ∧ SState.isMailLevel (SState.idle (Level.mail (7 : Nat)) : SState MP) = true :=
  ⟨rfl, rfl⟩

/-- C8 amended: HELO and EHLO do destroy an existing transaction through
reset - the hello handler is invoked on reset's result, and no processing
outcome of Helo or Ehlo carries a mail level - but a nested MAIL is
answered 503 and leaves the existing transaction untouched. -/
theorem c8_implicit_reset {P : Proto} (H : Handlers P) (cfg : Config)
    (sec : Bool) :
    (∀ (m : P.M) (d : Syn.Domain),
      Helo.recvH H (.mail m) d = H.hello (H.reset m) (.domain d))
    ∧ (∀ (m : P.M) (d : Syn.MailboxDomain),
      Ehlo.recvH H (.mail m) d = H.hello (H.reset m) d)
    ∧ (∀ (hes : Hesitant (Option P.S) P.HelloD) (send : SendBuf),
      SState.isMailLevel (Helo.process hes send cfg).1 = false)
    ∧ (∀ (hes : Hesitant (Option P.S) P.HelloD) (send : SendBuf),
      SState.isMailLevel (Ehlo.process hes send cfg sec).1 = false)
    ∧ (∀ (m : P.M) p ps (send : SendBuf),
      Idle.recvCmd H cfg (.mail m) (some (.mail p ps)) send sec =
        (.idle (.mail m), .collect,
          send.reply 503 (5, 5, 1) (bs "Nested MAIL command\r\n"))) := by
  refine ⟨fun m d => rfl, fun m d => rfl, fun hes send => ?_, fun hes send => ?_,
    fun m p ps send => ?_⟩
  · cases hes with
    | Final v => cases v with
      | some s => rfl
      | none => rfl
    | Defer d => rfl
  · cases hes with
    | Final v => cases v with
      | some s => rfl
      | none => rfl
    | Defer d => rfl
  · simp only [Idle.recvCmd, Mail.recvH, Mail.process]

/-- C9: while the session waits on a deferred decision, receive parses
nothing and leaves the receive buffer (and send buffer) untouched, only
emitting Wait; wakeup dispatches the stored defer to its wakeup method and
feeds the result into exactly the process step of the original call; a
handler Defer is what puts the machine into Wait; and when the defer's
wakeup answers Final, the wakeup outcome is the same process applied to
that Final value that receive would have produced for an immediately-final
handler. -/
theorem c9_wait_blocks_until_wakeup :
    (∀ (P : Proto) (H : Handlers P) (cfg : Config) (parse : ParseFn)
      (w : WaitSt P) (b : RecvBuf) (send : SendBuf) (sec : Bool),
      Session.recv H cfg parse (.wait w) b send sec = (.wait w, .wait, b, send))
    ∧ (∀ (P : Proto) (H : Handlers P) (cfg : Config) (send : SendBuf) (sec : Bool),
      (∀ d, Session.wakeup H cfg (.wait (.start d)) send sec =
        Start.process (H.startWakeup d) send cfg)
      ∧ (∀ d, Session.wakeup H cfg (.wait (.helo d)) send sec =
        Helo.process (H.helloWakeup d) send cfg)
      ∧ (∀ d, Session.wakeup H cfg (.wait (.ehlo d)) send sec =
        Ehlo.process (H.helloWakeup d) send cfg sec)
      ∧ (∀ d, Session.wakeup H cfg (.wait (.mail d)) send sec =
        Mail.process ((H.mailWakeup d send).1.mapFinal Mail.translate)
          (H.mailWakeup d send).2)
      ∧ (∀ d, Session.wakeup H cfg (.wait (.rcpt d)) send sec =
        Rcpt.process ((H.recipientWakeup d send).1.mapFinal Rcpt.translate)
          (H.recipientWakeup d send).2)
      ∧ (∀ d, Session.wakeup H cfg (.wait (.data d)) send sec =
        Data.process ((H.dataWakeup d).mapFinal Data.translate) send)
      ∧ (∀ wv, Session.wakeup H cfg (.wait (.vrfy wv)) send sec =
        Vrfy.process (Vrfy.wakeupH H wv send).1 (Vrfy.wakeupH H wv send).2)
      ∧ (∀ wv, Session.wakeup H cfg (.wait (.expn wv)) send sec =
        Expn.process (Expn.wakeupH H wv send).1 (Expn.wakeupH H wv send).2)
      ∧ (∀ wv, Session.wakeup H cfg (.wait (.help wv)) send sec =
        Help.process (Help.wakeupH H wv send).1 (Help.wakeupH H wv send).2)
      ∧ (∀ d, Session.wakeup H cfg (.wait (.checkTls d)) send sec =
        CheckTls.process (H.checkTlsWakeup d) send)
      ∧ (∀ d, Session.wakeup H cfg (.wait (.dataComplete d)) send sec =
        DataComplete.process (H.completeWakeup d send).1
          (H.completeWakeup d send).2))
    ∧ (∀ (P : Proto) (H : Handlers P) (cfg : Config) (s : P.S) p ps send sec
        (d : P.MailD) send',
      H.mail s p ps send = (.Defer d, send') →
      Idle.recvCmd H cfg (.greeted s) (some (.mail p ps)) send sec =
        (.wait (.mail d), .wait, send'))
    ∧ (∀ (P : Proto) (H : Handlers P) (cfg : Config) (d : P.MailD) send sec
        (r : Except P.S P.M) send',
      H.mailWakeup d send = (.Final r, send') →
      Session.wakeup H cfg (.wait (.mail d)) send sec =
        Mail.process (.Final (Mail.translate r)) send')
    ∧ (∀ (P : Proto) (H : Handlers P) (cfg : Config) (s : P.S) p ps send sec
        (r : Except P.S P.M) send',
      H.mail s p ps send = (.Final r, send') →
      Idle.recvCmd H cfg (.greeted s) (some (.mail p ps)) send sec =
        Mail.process (.Final (Mail.translate r)) send') := by
  refine ⟨fun P H cfg parse w b send sec => rfl,
    fun P H cfg send sec =>
      ⟨fun d => rfl, fun d => rfl, fun d => rfl, fun d => rfl, fun d => rfl,
        fun d => rfl, fun wv => rfl, fun wv => rfl, fun wv => rfl,
        fun d => rfl, fun d => rfl⟩,
    fun P H cfg s p ps send sec d send' h => ?_,
    fun P H cfg d send sec r send' h => ?_,
    fun P H cfg s p ps send sec r send' h => ?_⟩
  · simp only [Idle.recvCmd, Mail.recvH, h, Hesitant.mapFinal, Mail.process]
  · simp only [Session.wakeup, WaitSt.wakeupStep, h, Hesitant.mapFinal]
  · simp only [Idle.recvCmd, Mail.recvH, h, Hesitant.mapFinal]

/-- C9, witnessed: MHdef defers MAIL (the machine enters Wait writing
nothing) and its wakeup accepts, after which the machine continues exactly
as Mail::process on the final result. -/
theorem c9_wait_blocks_until_wakeup_witness :
    Idle.recvCmd MHdef cfg0 (.greeted 0) (some (.mail [] [])) [] true =
      (.wait (.mail 7), .wait, [])
    ∧ Session.wakeup MHdef cfg0 (.wait (.mail 7)) [] true =
      Mail.process (.Final (Mail.translate (.ok 3))) (ok210 []) :=
  ⟨c9_wait_blocks_until_wakeup.2.2.1 MP MHdef cfg0 0 [] [] [] true 7 [] rfl,
    c9_wait_blocks_until_wakeup.2.2.2.1 MP MHdef cfg0 7 [] true (.ok 3)
      (ok210 []) rfl⟩

/-- C10: the Dead state absorbs everything: receive in Dead never consults
a handler (any two handler bundles give the same outcome), the state after
receive is Dead whatever the parse yields, and the reply table of
Session::recv_dead is: QUIT gets 221 and Close, Unrecognized 500,
ParameterError 501, and every other command 503 Please leave now, all with
Write. -/
theorem c10_dead_state_absorbs :
    (∀ (P : Proto) (H₁ H₂ : Handlers P) (cfg : Config) (parse : ParseFn)
      (b : RecvBuf) (send : SendBuf) (sec : Bool),
      Session.recv H₁ cfg parse .dead b send sec =
        Session.recv H₂ cfg parse .dead b send sec)
    ∧ (∀ (P : Proto) (H : Handlers P) (cfg : Config) (parse : ParseFn)
      (b : RecvBuf) (send : SendBuf) (sec : Bool),
      (Session.recv H cfg parse .dead b send sec).1 = .dead)
    ∧ (∀ send, Session.recvDeadCmd (some .quit) send =
        (.close, send.reply 221 (2, 0, 0) (bs "Bye\r\n")))
    ∧ (∀ send, Session.recvDeadCmd (some .unrecognized) send =
        (.write, send.reply 500 (5, 5, 2) (bs "Unrecognized command.\r\n")))
    ∧ (∀ send, Session.recvDeadCmd (some .parameterError) send =
        (.write, send.reply 501 (5, 5, 4) (bs "Error in command parameters.\r\n")))
    ∧ (∀ send d, Session.recvDeadCmd (some (.helo d)) send =
        (.write, send.reply 503 (5, 5, 1) (bs "Please leave now\r\n")))
    ∧ (∀ send d, Session.recvDeadCmd (some (.ehlo d)) send =
        (.write, send.reply 503 (5, 5, 1) (bs "Please leave now\r\n")))
    ∧ (∀ send p ps, Session.recvDeadCmd (some (.mail p ps)) send =
        (.write, send.reply 503 (5, 5, 1) (bs "Please leave now\r\n")))
    ∧ (∀ send p ps, Session.recvDeadCmd (some (.rcpt p ps)) send =
        (.write, send.reply 503 (5, 5, 1) (bs "Please leave now\r\n")))
    ∧ (∀ send, Session.recvDeadCmd (some .data) send =
        (.write, send.reply 503 (5, 5, 1) (bs "Please leave now\r\n")))
    ∧ (∀ send, Session.recvDeadCmd (some .rset) send =
        (.write, send.reply 503 (5, 5, 1) (bs "Please leave now\r\n")))
    ∧ (∀ send w ps, Session.recvDeadCmd (some (.vrfy w ps)) send =
        (.write, send.reply 503 (5, 5, 1) (bs "Please leave now\r\n")))
    ∧ (∀ send w ps, Session.recvDeadCmd (some (.expn w ps)) send =
        (.write, send.reply 503 (5, 5, 1) (bs "Please leave now\r\n")))
    ∧ (∀ send w, Session.recvDeadCmd (some (.help w)) send =
        (.write, send.reply 503 (5, 5, 1) (bs "Please leave now\r\n")))
    ∧ (∀ send, Session.recvDeadCmd (some .noop) send =
        (.write, send.reply 503 (5, 5, 1) (bs "Please leave now\r\n")))
    ∧ (∀ send, Session.recvDeadCmd (some .startTls) send =
        (.write, send.reply 503 (5, 5, 1) (bs "Please leave now\r\n")))
    ∧ (∀ send mech ini, Session.recvDeadCmd (some (.auth mech ini)) send =
        (.write, send.reply 503 (5, 5, 1) (bs "Please leave now\r\n")))
    ∧ (∀ send, Session.recvDeadCmd none send = (.write, send)) := by
  refine ⟨fun P H₁ H₂ cfg parse b send sec => ?_,
    fun P H cfg parse b send sec => ?_,
    fun send => rfl, fun send => rfl, fun send => rfl, fun send d => rfl,
    fun send d => rfl, fun send p ps => rfl, fun send p ps => rfl,
    fun send => rfl, fun send => rfl, fun send w ps => rfl,
    fun send w ps => rfl, fun send w => rfl, fun send => rfl, fun send => rfl,
    fun send mech ini => rfl, fun send => rfl⟩
  · simp only [Session.recv]
  · cases hp : parse b with
    | fail => simp [Session.recv, hp]
    | needMore => simp [Session.recv, hp, Session.recvDeadCmd]
    | cmd c next => simp [Session.recv, hp]

/-! ## C7: well-formedness of the emitted reply stream

A use of the reply writer is a code, an optional enhanced status, and a
sequence of writes.  We characterize the exact bytes the writer emits -
every reply becomes its logical lines, non-final lines behind the dash
separator, the final line behind the space separator - and derive the
line invariants from that shape. -/

/-- One reply as issued through the writer. -/
structure RepSpec where
  code : Nat
  status : Option (Nat × Nat × Nat)
  writes : List (List Nat)

/-- Run one reply: create the writer, fold its writes, keep the buffer. -/
def runReply (buf : SendBuf) (r : RepSpec) : SendBuf :=
  (r.writes.foldl ReplyW.scribbleBytes (ReplyW.new buf r.code r.status)).2

/-- Run a sequence of replies into an empty send buffer. -/
def runReplies (rs : List RepSpec) : SendBuf :=
  rs.foldl runReply []

/-- Group scribbled segments into closed logical lines (first component,
each carrying its final CRLF) and the still open line (second). -/
def grpStep (acc : List (List Nat) × List Nat) (seg : List Nat) :
    List (List Nat) × List Nat :=
  if seg.isEmpty then acc
  else
    let line := acc.2 ++ seg
    if seg.getLast? = some 13 then (acc.1 ++ [line ++ [10]], [])
    else (acc.1, line)

/-- All segments of a write sequence, in order. -/
def segsOf (ws : List (List Nat)) : List (List Nat) :=
  (ws.map splitNl).flatten

/-- The logical lines of a reply's write sequence. -/
def repLines (r : RepSpec) : List (List Nat) :=
  ((segsOf r.writes).foldl grpStep ([], [])).1

/-- The bytes of the enhanced status code part of a prefix. -/
def statusB (status : Option (Nat × Nat × Nat)) : List Nat :=
  match status with
  | none => []
  | some (a, b, c) =>
      scribbleU64 a ++ [46] ++ scribbleU64 b ++ [46] ++ scribbleU64 c ++ [32]

/-- A line prefix: the code digits, the separator octet, the status part. -/
def pfxB (code : Nat) (status : Option (Nat × Nat × Nat)) (sep : Nat) :
    List Nat :=
  scribbleU64 code ++ sep :: statusB status

/-- Non-final lines, each behind the dash-separated prefix. -/
def renderDash (code : Nat) (status : Option (Nat × Nat × Nat))
    (ls : List (List Nat)) : List Nat :=
  (ls.map (fun l => pfxB code status 45 ++ l)).flatten

/-- The rendered form of one reply: the non-final lines behind dash
prefixes, then the space-separated prefix and the final line. -/
def renderRep (r : RepSpec) : List Nat :=
  renderDash r.code r.status (repLines r).dropLast ++
    pfxB r.code r.status 32 ++ ((repLines r).getLast?.getD [])

/-- A well-formed emitted line: it ends in LF, that LF is preceded by CR,
and no other LF occurs in it. -/
def LineWf (l : List Nat) : Prop :=
  l.getLast? = some 10 ∧ (10 : Nat) ∉ l.dropLast ∧ l.dropLast.getLast? = some 13

/-- The invariant tying the writer state to the line grouping: the buffer
is the base, the closed lines rendered behind dash prefixes, the latest
prefix still carrying its space, and the open line; sp points at that
space.  While crlf is set the open line is empty and the last closed line
still sits behind the space prefix, to be patched by the next content. -/
def WInv (code : Nat) (status : Option (Nat × Nat × Nat)) (buf : SendBuf)
    (acc : List (List Nat) × List Nat) : ReplyW × SendBuf → Prop
  | (r, b2) =>
      r.code = code ∧ r.status = status ∧ (∀ l ∈ acc.1, LineWf l) ∧
      (10 : Nat) ∉ acc.2 ∧
      (match r.crlf with
       | true => acc.2 = [] ∧ ∃ C last, acc.1 = C ++ [last] ∧
           b2 = buf ++ renderDash code status C ++ pfxB code status 32 ++ last ∧
           r.sp = buf.length + (renderDash code status C).length +
             (scribbleU64 code).length
       | false =>
           b2 = buf ++ renderDash code status acc.1 ++ pfxB code status 32 ++
             acc.2 ∧
           r.sp = buf.length + (renderDash code status acc.1).length +
             (scribbleU64 code).length ∧
           (acc.2 = [] → acc.1 = []))

/-- write_prefix in rendered form. -/
theorem writePfx_eq (send : SendBuf) (code : Nat)
    (status : Option (Nat × Nat × Nat)) :
    writePfx send code status =
      (send ++ pfxB code status 32, send.length + (scribbleU64 code).length) := by
  cases status with
  | none => simp [writePfx, pfxB, statusB]
  | some s =>
      obtain ⟨a, b, c⟩ := s
      simp [writePfx, pfxB, statusB]

/-- Reply::new in rendered form. -/
theorem replyWNew_eq (send : SendBuf) (code : Nat)
    (status : Option (Nat × Nat × Nat)) :
    ReplyW.new send code status =
      ({ code := code, status := status,
         sp := send.length + (scribbleU64 code).length, crlf := false },
        send ++ pfxB code status 32) := by
  simp [ReplyW.new, writePfx_eq]

/-- Overwriting the byte just past a known-length block. -/
theorem set_at_len (A B : List Nat) (x y : Nat) :
    (A ++ x :: B).set A.length y = A ++ y :: B := by
  induction A with
  | nil => rfl
  | cons a as ih =>
      show a :: ((as ++ x :: B).set as.length y) = a :: (as ++ y :: B)
      rw [ih]

/-- renderDash over one more line. -/
theorem renderDash_concat (code : Nat) (status : Option (Nat × Nat × Nat))
    (C : List (List Nat)) (l : List Nat) :
    renderDash code status (C ++ [l]) =
      renderDash code status C ++ pfxB code status 45 ++ l := by
  simp [renderDash]

/-- splitNl never yields the empty list of segments. -/
theorem splitNl_ne_nil (w : List Nat) : splitNl w ≠ [] := by
  induction w with
  | nil => simp [splitNl]
  | cons c t ih =>
      by_cases hc : c = 10
      · simp [splitNl, hc]
      · simp only [splitNl, hc, if_false]
        cases h : splitNl t with
        | nil => exact absurd h ih
        | cons s ss => simp

/-- Segments of a split contain no LF. -/
theorem splitNl_no10 (w : List Nat) : ∀ s ∈ splitNl w, (10 : Nat) ∉ s := by
  induction w with
  | nil => simp [splitNl]
  | cons c t ih =>
      intro s hs
      by_cases hc : c = 10
      · simp only [splitNl, hc, if_true, List.mem_cons] at hs
        rcases hs with rfl | hs
        · simp
        · exact ih s hs
      · simp only [splitNl, hc, if_false] at hs
        cases h : splitNl t with
        | nil => exact absurd h (splitNl_ne_nil t)
        | cons s0 ss =>
            rw [h] at hs
            rcases List.mem_cons.mp hs with rfl | hs2
            · intro hmem
              rcases List.mem_cons.mp hmem with h10 | h10
              · exact hc h10.symm
              · exact ih s0 (h ▸ List.mem_cons_self s0 ss) h10
            · exact ih s (h ▸ List.mem_cons_of_mem s0 hs2)

/-- One scribbled segment preserves the invariant, in step with grpStep. -/
theorem winv_step (code : Nat) (status : Option (Nat × Nat × Nat))
    (buf : SendBuf) (acc : List (List Nat) × List Nat) (r : ReplyW)
    (b2 : SendBuf) (seg : List Nat) (hseg : (10 : Nat) ∉ seg)
    (h : WInv code status buf acc (r, b2)) :
    WInv code status buf (grpStep acc seg) (ReplyW.scribLine (r, b2) seg) := by
  obtain ⟨hcode, hstatus, hwf, hcur, hmain⟩ := h
  cases seg with
  | nil => exact ⟨hcode, hstatus, hwf, hcur, hmain⟩
  | cons a l =>
    have hne : a :: l ≠ [] := by simp
    have hlast13 :
        ∀ (u : List Nat), (u ++ (a :: l)).getLast? = (a :: l).getLast? := by
      intro u
      exact List.getLast?_append_of_ne_nil u hne
    cases hcrlf : r.crlf with
    | false =>
        rw [hcrlf] at hmain
        obtain ⟨hb2, hsp, himp⟩ := hmain
        by_cases h13 : (a :: l).getLast? = some 13
        · -- the segment closes the line
          have hred : ReplyW.scribLine (r, b2) (a :: l) =
              ({ r with crlf := true }, b2 ++ (a :: l) ++ [10]) := by
            simp [ReplyW.scribLine, hcrlf, h13]
          have hgrp : grpStep acc (a :: l) =
              (acc.1 ++ [acc.2 ++ (a :: l) ++ [10]], []) := by
            simp [grpStep, h13]
          rw [hred, hgrp]
          refine ⟨hcode, hstatus, ?_, by simp, ?_⟩
          · intro ln hln
            rcases List.mem_append.mp hln with hl1 | hl1
            · exact hwf ln hl1
            · have : ln = acc.2 ++ (a :: l) ++ [10] := by simpa using hl1
              subst this
              refine ⟨?_, ?_, ?_⟩
              · show ((acc.2 ++ (a :: l)) ++ [10]).getLast? = some 10
                exact List.getLast?_concat _
              · show (10 : Nat) ∉ ((acc.2 ++ (a :: l)) ++ [10]).dropLast
                rw [List.dropLast_concat]
                intro hmem
                rcases List.mem_append.mp hmem with hm | hm
                · exact hcur hm
                · exact hseg hm
              · show (((acc.2 ++ (a :: l)) ++ [10]).dropLast).getLast? = some 13
                rw [List.dropLast_concat, hlast13 acc.2]
                exact h13
          · show ([] : List Nat) = [] ∧ _
            refine ⟨rfl, acc.1, acc.2 ++ (a :: l) ++ [10], rfl, ?_, ?_⟩
            · rw [hb2]
              simp [List.append_assoc]
            · exact hsp
        · -- the line stays open
          have hred : ReplyW.scribLine (r, b2) (a :: l) = (r, b2 ++ (a :: l)) := by
            simp [ReplyW.scribLine, hcrlf, h13]
          have hgrp : grpStep acc (a :: l) = (acc.1, acc.2 ++ (a :: l)) := by
            simp [grpStep, h13]
          rw [hred, hgrp]
          refine ⟨hcode, hstatus, hwf, ?_, ?_⟩
          · intro hmem
            rcases List.mem_append.mp hmem with hm | hm
            · exact hcur hm
            · exact hseg hm
          · rw [hcrlf]
            refine ⟨?_, hsp, by simp⟩
            rw [hb2]
            simp [List.append_assoc]
    | true =>
        rw [hcrlf] at hmain
        obtain ⟨hcurnil, C, last, hacc1, hb2, hsp⟩ := hmain
        -- the patch: the space separator of the pending prefix becomes a
        -- dash, absorbing that prefix and the pending line into the
        -- rendered closed lines, and a fresh space prefix is written
        have hb2' : b2 = (buf ++ renderDash code status C ++ scribbleU64 code) ++
            32 :: (statusB status ++ last) := by
          rw [hb2]
          simp [pfxB, List.append_assoc]
        have hsp' : r.sp =
            (buf ++ renderDash code status C ++ scribbleU64 code).length := by
          rw [hsp]; simp [List.length_append, Nat.add_assoc]
        have hpatch : b2.set r.sp 45 = buf ++ renderDash code status acc.1 := by
          rw [hb2', hsp', set_at_len, hacc1, renderDash_concat]
          simp [pfxB, List.append_assoc]
        by_cases h13 : (a :: l).getLast? = some 13
        · have hred : ReplyW.scribLine (r, b2) (a :: l) =
              ({ r with
                  sp := (buf ++ renderDash code status acc.1).length +
                    (scribbleU64 code).length,
                  crlf := true },
                ((buf ++ renderDash code status acc.1) ++ pfxB code status 32) ++
                  (a :: l) ++ [10]) := by
            simp [ReplyW.scribLine, hcrlf, SendBuf.update, hpatch, writePfx_eq,
              h13, hcode, hstatus]
          have hgrp : grpStep acc (a :: l) =
              (acc.1 ++ [(a :: l) ++ [10]], []) := by
            simp [grpStep, h13, hcurnil]
          rw [hred, hgrp]
          refine ⟨hcode, hstatus, ?_, by simp, ?_⟩
          · intro ln hln
            rcases List.mem_append.mp hln with hl1 | hl1
            · exact hwf ln hl1
            · have : ln = (a :: l) ++ [10] := by simpa using hl1
              subst this
              refine ⟨?_, ?_, ?_⟩
              · show ((a :: l) ++ [10]).getLast? = some 10
                exact List.getLast?_concat _
              · show (10 : Nat) ∉ ((a :: l) ++ [10]).dropLast
                rw [List.dropLast_concat]
                exact hseg
              · show (((a :: l) ++ [10]).dropLast).getLast? = some 13
                rw [List.dropLast_concat]
                exact h13
          · show ([] : List Nat) = [] ∧ _
            refine ⟨rfl, acc.1, (a :: l) ++ [10], rfl, ?_, ?_⟩
            · simp [List.append_assoc]
            · simp [List.length_append]
        · have hred : ReplyW.scribLine (r, b2) (a :: l) =
              ({ r with
                  sp := (buf ++ renderDash code status acc.1).length +
                    (scribbleU64 code).length,
                  crlf := false },
                ((buf ++ renderDash code status acc.1) ++ pfxB code status 32) ++
                  (a :: l)) := by
            simp [ReplyW.scribLine, hcrlf, SendBuf.update, hpatch, writePfx_eq,
              h13, hcode, hstatus]
          have hgrp : grpStep acc (a :: l) = (acc.1, a :: l) := by
            simp [grpStep, h13, hcurnil]
          rw [hred, hgrp]
          refine ⟨hcode, hstatus, hwf, hseg, ?_, ?_, by simp⟩
          · simp [List.append_assoc]
          · simp [List.length_append]

/-- Folding segments preserves the invariant. -/
theorem winv_fold (code : Nat) (status : Option (Nat × Nat × Nat))
    (buf : SendBuf) (segs : List (List Nat))
    (hsegs : ∀ s ∈ segs, (10 : Nat) ∉ s) :
    ∀ (acc : List (List Nat) × List Nat) (st : ReplyW × SendBuf),
      WInv code status buf acc st →
      WInv code status buf (segs.foldl grpStep acc)
        (segs.foldl ReplyW.scribLine st) := by
  induction segs with
  | nil => intro acc st h; exact h
  | cons s segs ih =>
      intro acc st h
      obtain ⟨r, b2⟩ := st
      exact ih (fun x hx => hsegs x (List.mem_cons_of_mem s hx)) _ _
        (winv_step code status buf acc r b2 s
          (hsegs s (List.mem_cons_self s segs)) h)

/-- The fresh writer satisfies the invariant with nothing accumulated. -/
theorem winv_init (code : Nat) (status : Option (Nat × Nat × Nat))
    (buf : SendBuf) :
    WInv code status buf ([], []) (ReplyW.new buf code status) := by
  rw [replyWNew_eq]
  exact ⟨rfl, rfl, by simp, by simp, by simp [renderDash], rfl, fun _ => rfl⟩

/-- scribble_bytes is the segment fold of the split. -/
theorem scribbleBytes_eq_fold (st : ReplyW × SendBuf) (w : List Nat) :
    ReplyW.scribbleBytes st w = (splitNl w).foldl ReplyW.scribLine st := by
  cases w with
  | nil => rfl
  | cons a l => rfl

/-- Folding all writes is folding all their segments. -/
theorem foldl_scribbleBytes_eq (ws : List (List Nat)) :
    ∀ st : ReplyW × SendBuf,
      ws.foldl ReplyW.scribbleBytes st = (segsOf ws).foldl ReplyW.scribLine st := by
  induction ws with
  | nil => intro st; rfl
  | cons w ws ih =>
      intro st
      show ws.foldl ReplyW.scribbleBytes (ReplyW.scribbleBytes st w) = _
      rw [ih, scribbleBytes_eq_fold]
      simp [segsOf, List.foldl_append]

/-- grpStep only ever extends the closed lines. -/
theorem grp_closed_mono (segs : List (List Nat)) :
    ∀ acc : List (List Nat) × List Nat, acc.1 ≠ [] →
      (segs.foldl grpStep acc).1 ≠ [] := by
  induction segs with
  | nil => intro acc h; exact h
  | cons s segs ih =>
      intro acc h
      refine ih (grpStep acc s) ?_
      unfold grpStep
      by_cases hs : s.isEmpty
      · simpa [hs] using h
      · by_cases h13 : s.getLast? = some 13 <;> simp [hs, h13, h]

/-- The split of a CRLF-terminated byte string: the CR joins the last
segment and the LF opens a final empty segment. -/
theorem splitNl_append_crlf (w : List Nat) :
    ∃ A s, splitNl w = A ++ [s] ∧
      splitNl (w ++ [13, 10]) = A ++ [s ++ [13], []] := by
  induction w with
  | nil => exact ⟨[], [], rfl, rfl⟩
  | cons c t ih =>
      obtain ⟨A, s, h1, h2⟩ := ih
      by_cases hc : c = 10
      · refine ⟨[] :: A, s, ?_, ?_⟩
        · simp [splitNl, hc, h1]
        · show splitNl (c :: (t ++ [13, 10])) = _
          simp [splitNl, hc, h2]
      · cases A with
        | nil =>
            refine ⟨[], c :: s, ?_, ?_⟩
            · simp only [splitNl, hc, if_false, h1]
              simp
            · show splitNl (c :: (t ++ [13, 10])) = _
              simp only [splitNl, hc, if_false, h2]
              simp
        | cons a A2 =>
            refine ⟨(c :: a) :: A2, s, ?_, ?_⟩
            · simp only [splitNl, hc, if_false, h1]
              simp
            · show splitNl (c :: (t ++ [13, 10])) = _
              simp only [splitNl, hc, if_false, h2]
              simp

/-- After the segments of one CRLF-terminated write, the open line is
empty  and at least one line is closed. -/
theorem grp_after_crlf_write (w : List Nat) (acc : List (List Nat) × List Nat) :
    ((splitNl (w ++ [13, 10])).foldl grpStep acc).2 = []
    ∧ ((splitNl (w ++ [13, 10])).foldl grpStep acc).1 ≠ [] := by
  obtain ⟨A, s, _, h2⟩ := splitNl_append_crlf w
  rw [h2]
  have hfold : (A ++ [s ++ [13], []]).foldl grpStep acc =
      grpStep (grpStep (A.foldl grpStep acc) (s ++ [13])) [] := by
    rw [List.foldl_append]
    rfl
  rw [hfold]
  have hne : (s ++ [13]) ≠ [] := by simp
  have hlast : (s ++ [13]).getLast? = some 13 := List.getLast?_concat s
  have hstep : grpStep (A.foldl grpStep acc) (s ++ [13]) =
      ((A.foldl grpStep acc).1 ++
        [(A.foldl grpStep acc).2 ++ (s ++ [13]) ++ [10]], []) := by
    unfold grpStep
    simp [hne, hlast, List.isEmpty_iff]
  rw [show grpStep (grpStep (A.foldl grpStep acc) (s ++ [13])) [] =
      grpStep (A.foldl grpStep acc) (s ++ [13]) from rfl, hstep]
  simp

/-- Folding the segments of empty writes changes nothing. -/
theorem grp_nil_writes (ws : List (List Nat)) (h : ∀ w ∈ ws, w = []) :
    ∀ acc : List (List Nat) × List Nat, (segsOf ws).foldl grpStep acc = acc := by
  induction ws with
  | nil => intro acc; rfl
  | cons w ws ih =>
      intro acc
      have hw : w = [] := h w (List.mem_cons_self w ws)
      subst hw
      have hseg : segsOf ([] :: ws) = [[]] ++ segsOf ws := rfl
      rw [hseg, List.foldl_append]
      rw [show ([[]] : List (List Nat)).foldl grpStep acc = acc from rfl]
      exact ih (fun v hv => h v (List.mem_cons_of_mem [] hv)) acc

/-- After all segments of a write sequence in which every write is empty or
CRLF-terminated and at least one is nonempty, the open line is empty and a
line was closed. -/
theorem grp_writes_end (ws : List (List Nat))
    (hw : ∀ w ∈ ws, w = [] ∨ ∃ w', w = w' ++ [13, 10])
    (hne : ∃ w ∈ ws, w ≠ []) :
    ∀ acc : List (List Nat) × List Nat,
      ((segsOf ws).foldl grpStep acc).2 = []
      ∧ ((segsOf ws).foldl grpStep acc).1 ≠ [] := by
  induction ws with
  | nil => obtain ⟨w, hw, _⟩ := hne; exact absurd hw (List.not_mem_nil w)
  | cons w ws ih =>
      intro acc
      have hsplit : (segsOf (w :: ws)).foldl grpStep acc =
          (segsOf ws).foldl grpStep ((splitNl w).foldl grpStep acc) := by
        show ((splitNl w ++ segsOf ws).foldl grpStep acc) = _
        rw [List.foldl_append]
      rw [hsplit]
      by_cases hrest : ∃ v ∈ ws, v ≠ []
      · exact ih (fun v hv => hw v (List.mem_cons_of_mem w hv)) hrest _
      · push_neg at hrest
        have hwne : w ≠ [] := by
          obtain ⟨v, hv, hvne⟩ := hne
          rcases List.mem_cons.mp hv with rfl | hv2
          · exact hvne
          · exact absurd (hrest v hv2) hvne
        rcases hw w (List.mem_cons_self w ws) with rfl | ⟨w', rfl⟩
        · exact absurd rfl hwne
        · rw [grp_nil_writes ws hrest]
          exact grp_after_crlf_write w' acc

/-- One reply through the writer: the buffer grows by exactly the rendered
reply, whose lines are all well formed. -/
theorem runReply_eq (buf : SendBuf) (rep : RepSpec)
    (hw : ∀ w ∈ rep.writes, w = [] ∨ ∃ w', w = w' ++ [13, 10])
    (hne : ∃ w ∈ rep.writes, w ≠ []) :
    runReply buf rep = buf ++ renderRep rep
    ∧ (∀ l ∈ repLines rep, LineWf l) ∧ repLines rep ≠ [] := by
  have hsegs : ∀ s ∈ segsOf rep.writes, (10 : Nat) ∉ s := by
    intro s hs
    obtain ⟨sl, hsl, hmem⟩ := List.mem_flatten.mp hs
    obtain ⟨w, _, rfl⟩ := List.mem_map.mp hsl
    exact splitNl_no10 w s hmem
  have hinv := winv_fold rep.code rep.status buf (segsOf rep.writes) hsegs
    ([], []) (ReplyW.new buf rep.code rep.status)
    (winv_init rep.code rep.status buf)
  have hend := grp_writes_end rep.writes hw hne ([], [])
  have hrun : runReply buf rep =
      ((segsOf rep.writes).foldl ReplyW.scribLine
        (ReplyW.new buf rep.code rep.status)).2 := by
    unfold runReply
    rw [foldl_scribbleBytes_eq]
  rcases hfold : (segsOf rep.writes).foldl ReplyW.scribLine
      (ReplyW.new buf rep.code rep.status) with ⟨rr, bb⟩
  rw [hfold] at hinv
  obtain ⟨hcode, hstatus, hwf, hcur, hmain⟩ := hinv
  cases hcrlf : rr.crlf with
  | false =>
      rw [hcrlf] at hmain
      obtain ⟨_, _, himp⟩ := hmain
      exact absurd (himp hend.1) hend.2
  | true =>
      rw [hcrlf] at hmain
      obtain ⟨hcur0, C, last, hacc1, hb, hsp⟩ := hmain
      refine ⟨?_, hwf, hend.2⟩
      rw [hrun, hfold]
      show bb = buf ++ renderRep rep
      rw [hb]
      unfold renderRep
      show _ = buf ++ (renderDash rep.code rep.status (repLines rep).dropLast ++
        pfxB rep.code rep.status 32 ++ ((repLines rep).getLast?.getD []))
      have hrl : repLines rep = C ++ [last] := hacc1
      rw [hrl, List.dropLast_concat, List.getLast?_concat]
      simp [List.append_assoc]

/-- Replies accumulate: the stream is the concatenation of the rendered
replies. -/
theorem runReplies_fold (rs : List RepSpec)
    (hw : ∀ rep ∈ rs, ∀ w ∈ rep.writes, w = [] ∨ ∃ w', w = w' ++ [13, 10])
    (hne : ∀ rep ∈ rs, ∃ w ∈ rep.writes, w ≠ []) :
    ∀ buf : SendBuf, rs.foldl runReply buf = buf ++ (rs.map renderRep).flatten := by
  induction rs with
  | nil => intro buf; simp
  | cons rep rs ih =>
      intro buf
      show rs.foldl runReply (runReply buf rep) = _
      rw [(runReply_eq buf rep (hw rep (List.mem_cons_self rep rs))
            (hne rep (List.mem_cons_self rep rs))).1,
        ih (fun x hx => hw x (List.mem_cons_of_mem rep hx))
          (fun x hx => hne x (List.mem_cons_of_mem rep hx))]
      simp [List.append_assoc]

/-- scribble_u64 of a one-digit number. -/
theorem scribbleU64Go_lt10 (fuel v : Nat) (h : v < 10) :
    scribbleU64Go fuel v = [v % 10 + 48] := by
  cases fuel with
  | zero => rfl
  | succ f =>
      have hz : v / 10 = 0 := Nat.div_eq_of_lt h
      simp [scribbleU64Go, hz]

/-- scribble_u64 of a two-digit number. -/
theorem scribbleU64Go_two (f v : Nat) (h1 : 10 ≤ v) (h2 : v ≤ 99)
    (hf : 1 ≤ f) : scribbleU64Go f v = [v / 10 + 48, v % 10 + 48] := by
  obtain ⟨f', rfl⟩ : ∃ f', f = f' + 1 := ⟨f - 1, by omega⟩
  have hd : v / 10 > 0 := by omega
  simp only [scribbleU64Go, if_pos hd]
  rw [scribbleU64Go_lt10 f' (v / 10) (by omega)]
  have hm : v / 10 % 10 = v / 10 := Nat.mod_eq_of_lt (by omega)
  rw [hm]
  rfl

/-- scribble_u64 of a three-digit number: exactly the three digit bytes. -/
theorem scribbleU64_three_digits (v : Nat) (h1 : 100 ≤ v) (h2 : v ≤ 999) :
    scribbleU64 v = [v / 100 + 48, v / 10 % 10 + 48, v % 10 + 48] := by
  unfold scribbleU64
  obtain ⟨f, rfl⟩ : ∃ f, v = f + 1 := ⟨v - 1, by omega⟩
  have hd : (f + 1) / 10 > 0 := by omega
  simp only [scribbleU64Go, if_pos hd]
  rw [scribbleU64Go_two f ((f + 1) / 10) (by omega) (by omega) (by omega)]
  have hx : (f + 1) / 10 / 10 = (f + 1) / 100 := by
    rw [Nat.div_div_eq_div_mul]
  rw [hx]
  rfl

/-- C7: a reply sequence through the writer (each reply with at least one
nonempty write, every write empty - a no-op - or CRLF-terminated, codes in
the asserted range) emits exactly the concatenation of its rendered
replies.  By renderRep and pfxB, that shape is: every line begins with the
three decimal digit bytes of its reply code followed by the separator
octet; within one reply every non-final line carries the dash separator
and exactly the final line the space; and by LineWf every line ends in CRLF
with no LF anywhere else. -/
theorem c7_reply_lines_wf (rs : List RepSpec)
    (hcode : ∀ rep ∈ rs, 200 ≤ rep.code ∧ rep.code ≤ 599)
    (hw : ∀ rep ∈ rs, ∀ w ∈ rep.writes, w = [] ∨ ∃ w', w = w' ++ [13, 10])
    (hne : ∀ rep ∈ rs, ∃ w ∈ rep.writes, w ≠ []) :
    runReplies rs = (rs.map renderRep).flatten
    ∧ (∀ rep ∈ rs, repLines rep ≠ []
        ∧ (∀ l ∈ repLines rep, LineWf l)
        ∧ scribbleU64 rep.code =
            [rep.code / 100 + 48, rep.code / 10 % 10 + 48, rep.code % 10 + 48]
        ∧ (∀ c ∈ scribbleU64 rep.code, 48 ≤ c ∧ c ≤ 57))
    ∧ (∀ st : ReplyW × SendBuf, ReplyW.scribbleBytes st [] = st) := by
  refine ⟨runReplies_fold rs hw hne [], ?_, fun st => rfl⟩
  intro rep hrep
  obtain ⟨hc1, hc2⟩ := hcode rep hrep
  have hdig : scribbleU64 rep.code =
      [rep.code / 100 + 48, rep.code / 10 % 10 + 48, rep.code % 10 + 48] :=
    scribbleU64_three_digits rep.code (by omega) (by omega)
  have hone := runReply_eq [] rep (hw rep hrep) (hne rep hrep)
  refine ⟨hone.2.2, hone.2.1, hdig, ?_⟩
  intro c hc
  rw [hdig] at hc
  simp only [List.mem_cons, List.not_mem_nil, or_false] at hc
  rcases hc with rfl | rfl | rfl <;> omega

/-- C7, witnessed on a two-reply stream, the first reply multi-line. -/
theorem c7_reply_lines_wf_witness :
    runReplies [⟨250, none, [bs "mail.example\r\n", bs "EXPN\r\nHELP\r\n"]⟩,
        ⟨221, some (2, 0, 0), [bs "Bye\r\n"]⟩] =
      (([⟨250, none, [bs "mail.example\r\n", bs "EXPN\r\nHELP\r\n"]⟩,
        ⟨221, some (2, 0, 0), [bs "Bye\r\n"]⟩] : List RepSpec).map
          renderRep).flatten := by
  refine (c7_reply_lines_wf _ (by decide) ?_ ?_).1
  · intro rep hrep w hwmem
    simp only [List.mem_cons, List.not_mem_nil, or_false] at hrep
    rcases hrep with rfl | rfl
    · simp only [List.mem_cons, List.not_mem_nil, or_false] at hwmem
      rcases hwmem with rfl | rfl
      · exact Or.inr ⟨bs "mail.example", by decide⟩
      · exact Or.inr ⟨bs "EXPN\r\nHELP", by decide⟩
    · simp only [List.mem_cons, List.not_mem_nil, or_false] at hwmem
      rcases hwmem with rfl
      exact Or.inr ⟨bs "Bye", by decide⟩
  · intro rep hrep
    simp only [List.mem_cons, List.not_mem_nil, or_false] at hrep
    rcases hrep with rfl | rfl
    · exact ⟨bs "mail.example\r\n", List.mem_cons_self _ _, by decide⟩
    · exact ⟨bs "Bye\r\n", List.mem_cons_self _ _, by decide⟩
